import Mathlib

set_option maxRecDepth 8192

/-!
Shallow embedding of the ahead-of-time class-prelinking engine of
`src/hotspot/share/cds/classPrelinker.cpp`.

Classes are identified by natural-number indices into an environment
`List Klass`; each `Klass` carries the attributes that the prelinker
queries (defining-loader tier, class-loader handle, hierarchy edges,
flags).  The mutable tables of `ClassPrelinker` (`_vm_classes`,
`_preloaded_classes`, `_processed_classes`, `_platform_initiated_classes`,
`_app_initiated_classes`) become association lists inside `PrelinkState`.
A class's constant pool is split into its immutable symbolic part
(`CPInfo`) and its mutable resolution state (`CPState`).  External
machinery (SystemDictionary lookup, LinkResolver outcomes, string
interning) is abstracted into an `Oracles` record; the functions of the
source file are translated as explicit state transformers over these
types.  The diagnostic flags `UseNewCode`/`UseNewCode2` are modelled as
the constant `false` (product default; the spec describes only the
behavior with these gates off).
-/

/-- Model of `shared_class_loader_type()` of a class: the defining-loader tier. -/
inductive LoaderType
  | boot
  | platform
  | app
  | other
deriving DecidableEq

/-- The `class_loader()` oop of a class: `boot` stands for the null (bootstrap) loader. -/
inductive Loader
  | boot
  | platform
  | app
deriving DecidableEq

/-- One entry of a class's field table, as consulted by `find_field`. -/
structure FieldInfo where
  fname : String := ""
  fsig : String := ""
  isStatic : Bool := false
deriving DecidableEq

/-- The attributes of an `InstanceKlass` (or array `Klass`) that the prelinker reads. -/
structure Klass where
  superIdx : Option Nat := none
  interfaces : List Nat := []
  loaderType : LoaderType := .other
  loader : Loader := .boot
  hidden : Bool := false
  isInstanceKlass : Bool := true
  isInterface : Bool := false
  hasLocalClinit : Bool := false
  isLinked : Bool := true
  isLoaded : Bool := true
  isShared : Bool := false
  builtinLoaderData : Bool := true
  isBuiltin : Bool := true
  mayBeRegenerated : Bool := false
  archivableHidden : Bool := false
  hasPreinitializedMirror : Bool := false
  name : String := ""
  fields : List FieldInfo := []
deriving DecidableEq

/-- Environment lookup; out-of-range indices yield a default (inert) class. -/
def klassAt (env : List Klass) (i : Nat) : Klass :=
  env.getD i {}

/-- Membership test of a `ClassesTable` (ResourceHashtable keyed by class identity). -/
def tableHas (t : List (Nat × Bool)) (k : Nat) : Bool :=
  t.any (fun p => p.1 == k)

/-- Model of `ResourceHashtable::put_if_absent`: returns the updated table and whether
a new entry was created. -/
def tablePutIfAbsent (t : List (Nat × Bool)) (k : Nat) (v : Bool) : List (Nat × Bool) × Bool :=
  if tableHas t k then (t, false) else ((k, v) :: t, true)

/-- The static tables of `ClassPrelinker`. -/
structure PrelinkState where
  vmClasses : List (Nat × Bool) := []
  preloadedClasses : List (Nat × Bool) := []
  processedClasses : List (Nat × Bool) := []
  platformInitiated : List (Nat × Bool) := []
  appInitiated : List (Nat × Bool) := []
  numVmKlasses : Nat := 0
deriving DecidableEq

/-- Model of `ClassPrelinker::is_vm_class`. -/
def is_vm_class (st : PrelinkState) (ik : Nat) : Bool :=
  tableHas st.vmClasses ik

/-- Model of `ClassPrelinker::is_preloaded_class`. -/
def is_preloaded_class (st : PrelinkState) (ik : Nat) : Bool :=
  tableHas st.preloadedClasses ik

/-- Model of `Klass::is_subtype_of`, reflexive-transitive over the supertype and
local-interface edges, made total with a fuel argument (in a well-formed
environment every hierarchy edge goes to a strictly smaller index, so fuel
`a + 1` is always sufficient). -/
def is_subtype_of_fuel (env : List Klass) : Nat → Nat → Nat → Bool
  | 0, _, _ => false
  | fuel + 1, a, b =>
    if a = b then true
    else
      (match (klassAt env a).superIdx with
       | some s => is_subtype_of_fuel env fuel s b
       | none => false) ||
      (klassAt env a).interfaces.any (fun j => is_subtype_of_fuel env fuel j b)

/-- Model of `cp_holder->is_subtype_of(ik)` with the canonical fuel. -/
def is_subtype_of (env : List Klass) (a b : Nat) : Bool :=
  is_subtype_of_fuel env (a + 1) a b

/-- Model of `ClassPrelinker::add_initiated_klass(ClassesTable*, const char*, InstanceKlass*)`:
`put_if_absent(target, true)`; the rest of that function is logging. -/
def add_initiated_klass_table (t : List (Nat × Bool)) (target : Nat) : List (Nat × Bool) :=
  (tablePutIfAbsent t target true).1

/-- Model of `SystemDictionary::is_platform_class_loader`. -/
def is_platform_class_loader (l : Loader) : Bool :=
  l == .platform

/-- Model of `ClassPrelinker::add_initiated_klass(InstanceKlass* ik, InstanceKlass* target)`:
no-op when the two classes share a defining-loader tier, otherwise records the
target in the platform- or app-initiated table according to `ik`'s class loader. -/
def add_initiated_klass (env : List Klass) (st : PrelinkState) (ik target : Nat) : PrelinkState :=
  if (klassAt env ik).loaderType = (klassAt env target).loaderType then st
  else if is_platform_class_loader (klassAt env ik).loader then
    { st with platformInitiated := add_initiated_klass_table st.platformInitiated target }
  else
    { st with appInitiated := add_initiated_klass_table st.appInitiated target }

/-- Model of `ClassPrelinker::can_archive_resolved_klass(InstanceKlass* cp_holder, Klass* resolved_klass)`.
Returns the decision together with the updated state (the initiated-class
tables are mutated as a side effect in the preloaded-class branches). -/
def can_archive_resolved_klass (env : List Klass) (st : PrelinkState)
    (cp_holder resolved_klass : Nat) : Bool × PrelinkState :=
  if (klassAt env resolved_klass).isInstanceKlass then
    if is_subtype_of env cp_holder resolved_klass then (true, st)
    else if is_vm_class st cp_holder then (is_vm_class st resolved_klass, st)
    else if is_preloaded_class st resolved_klass then
      if (klassAt env cp_holder).loaderType = .platform then
        (true, add_initiated_klass env st cp_holder resolved_klass)
      else if (klassAt env cp_holder).loaderType = .app then
        (true, add_initiated_klass env st cp_holder resolved_klass)
      else if (klassAt env cp_holder).loaderType = .boot then
        (true, st)
      else if (klassAt env cp_holder).hidden && (klassAt env cp_holder).loader == .boot then
        (true, st)
      else (false, st)
    else (false, st)
  else (false, st)

/-- Model of `ClassPrelinker::add_one_vm_class`: inserts a class into both the
preloaded and the vm-classes table and, if newly inserted, recurses into its
supertype and local interfaces.  Fuel-based recursion (hierarchy edges go to
strictly smaller indices in a well-formed environment). -/
def add_one_vm_class (env : List Klass) : Nat → PrelinkState → Nat → PrelinkState
  | 0, st, _ => st
  | fuel + 1, st, ik =>
    let preloaded1 := (tablePutIfAbsent st.preloadedClasses ik false).1
    let vmres := tablePutIfAbsent st.vmClasses ik false
    let st1 := { st with preloadedClasses := preloaded1, vmClasses := vmres.1 }
    if vmres.2 then
      let st2 := { st1 with numVmKlasses := st1.numVmKlasses + 1 }
      let st3 :=
        match (klassAt env ik).superIdx with
        | some s => add_one_vm_class env fuel st2 s
        | none => st2
      (klassAt env ik).interfaces.foldl (add_one_vm_class env fuel) st3
    else st1

/-- Decidable well-formedness of an environment: every hierarchy edge goes to
a strictly smaller index (classes are defined after their supertypes). -/
def envValidB (env : List Klass) : Bool :=
  (List.range env.length).all (fun i =>
    ((klassAt env i).superIdx.all (fun s => decide (s < i))) &&
    ((klassAt env i).interfaces.all (fun j => decide (j < i))))

/-- Propositional form of environment well-formedness, over all indices. -/
def envValidP (env : List Klass) : Prop :=
  ∀ i, (∀ s, (klassAt env i).superIdx = some s → s < i) ∧
    (∀ j ∈ (klassAt env i).interfaces, j < i)

/-- A table is closed under hierarchy edges except possibly at the listed
pending classes: every member either is pending or has its supertype and all
its interfaces in the table. -/
def closedExceptP (env : List Klass) (t : List (Nat × Bool)) (pending : List Nat) : Prop :=
  ∀ c ∈ t.map Prod.fst,
    c ∈ pending ∨
      ((klassAt env c).superIdx.all (fun s => tableHas t s) = true ∧
       ∀ j ∈ (klassAt env c).interfaces, tableHas t j = true)

/-- Sample hierarchy for the end-to-end closure test: `java.lang.Object`. -/
def sampleObject : Klass :=
  { loaderType := .boot, name := "java/lang/Object" }

/-- Sample hierarchy: `java.lang.Number extends Object`. -/
def sampleNumber : Klass :=
  { superIdx := some 0, loaderType := .boot, name := "java/lang/Number" }

/-- Sample hierarchy: `java.lang.Integer extends Number`. -/
def sampleInteger : Klass :=
  { superIdx := some 1, loaderType := .boot, name := "java/lang/Integer" }

/-- The three-class sample environment `{Object, Number, Integer}`. -/
def sampleEnv : List Klass :=
  [sampleObject, sampleNumber, sampleInteger]

/-- Model of `ClassPrelinker::find_loaded_class(Thread*, oop class_loader, Symbol*)`:
dictionary lookup with the delegation fallback app → platform → boot,
unrolled over the three builtin loaders.  `dict` abstracts
`SystemDictionary::find_instance_or_array_klass`. -/
def find_loaded_class (dict : Loader → String → Option Nat) (loader : Loader)
    (name : String) : Option Nat :=
  match dict loader name with
  | some k => some k
  | none =>
    match loader with
    | .app =>
      match dict .platform name with
      | some k => some k
      | none => dict .boot name
    | .platform => dict .boot name
    | .boot => none

/-- The diagnostic flag `UseNewCode`, gating the not-yet-implemented
resolution paths; modelled as its product default `false` (the spec describes
only the behavior with such gates off). -/
def UseNewCode : Bool := false

/-- The diagnostic flag `UseNewCode2`, which when set treats entries skipped
by the training mask as resolved anyway; modelled as its product default
`false`. -/
def UseNewCode2 : Bool := false

/-- The configuration queries read by the prelinker. -/
structure Flags where
  preloadSharedClasses : Bool := true
  archiveInvokeDynamic : Bool := false
  dumpingHeap : Bool := true
  heapCanWrite : Bool := true
deriving DecidableEq

/-- The resolution state of a constant-pool entry (`constantTag`). -/
inductive CPTag
  | stringTag
  | unresolvedClass
  | unresolvedClassInError
  | klassTag (k : Nat)
  | fieldRef
  | methodRef
  | indyTag
  | otherTag
deriving DecidableEq

/-- Model of `constantTag::is_klass()`: the entry is a resolved class. -/
def CPTag.isKlass : CPTag → Bool
  | .klassTag _ => true
  | _ => false

/-- The kinds of faults that dump-time resolution can raise. -/
inductive Fault
  | stringOOM
  | resolutionError
  | fatalMismatch
deriving DecidableEq

/-- The immutable symbolic content of one constant-pool entry: the accessor
results `uncached_klass_ref_index_at`, `uncached_name_ref_at`,
`uncached_signature_ref_at`, `klass_name_at`, `bootstrap_method_ref_index_at`,
`method_handle_index_at`, and the return type extracted by `SignatureStream`. -/
structure CPEntryInfo where
  klassRefIndex : Nat := 0
  name : String := ""
  signature : String := ""
  klassName : String := ""
  bsmRefIndex : Nat := 0
  mhRefIndex : Nat := 0
  returnTypeName : String := ""
deriving DecidableEq

/-- The bytecodes distinguished by the prelinker's bytecode scan. -/
inductive BC
  | getstatic
  | putstatic
  | getfield
  | putfield
  | nofast_getfield
  | nofast_putfield
  | invokehandle
  | invokevirtual
  | invokeinterface
  | invokespecial
  | invokestatic
  | otherBC
deriving DecidableEq

/-- Model of `Bytecodes::java_code` restricted to the scanned opcodes: `BytecodeStream::code()`
rewrites the `_nofast` variants back to their Java form. -/
def java_code : BC → BC
  | .nofast_getfield => .getfield
  | .nofast_putfield => .putfield
  | bc => bc

/-- The immutable part of a class's constant pool and methods: entry
descriptions, the `constant_pool_index()` mappings of the resolved-field and
ConstantPoolCache entries, the method bytecodes (opcode plus operand index),
and the `constant_pool_index()` of each resolved-indy entry. -/
structure CPInfo where
  length : Nat := 0
  entries : List CPEntryInfo := []
  fieldEntryCpIndex : List Nat := []
  methodEntryCpIndex : List Nat := []
  hasCache : Bool := true
  methods : List (List (BC × Nat)) := []
  indyEntries : List Nat := []
deriving DecidableEq

/-- Entry-info lookup; out-of-range indices yield an inert default. -/
def entryAt (info : CPInfo) (i : Nat) : CPEntryInfo :=
  info.entries.getD i {}

/-- The mutable resolution state of a class's constant pool: the per-index
tags, the resolved bits of the field/method cache entries and indy entries,
and the set of interned string entries. -/
structure CPState where
  tags : List CPTag := []
  fieldResolved : List Bool := []
  methodResolved : List Bool := []
  indyResolved : List Bool := []
  resolvedStrings : List Nat := []
deriving DecidableEq

/-- Tag lookup in the mutable pool state. -/
def tagAt (st : CPState) (i : Nat) : CPTag :=
  st.tags.getD i .otherTag

/-- Overwrite the tag of entry `i` (class entry resolution / error recording). -/
def setTag (st : CPState) (i : Nat) (t : CPTag) : CPState :=
  { st with tags := st.tags.set i t }

/-- Mark the resolved-field cache entry `r` as resolved. -/
def setFieldResolved (st : CPState) (r : Nat) : CPState :=
  { st with fieldResolved := st.fieldResolved.set r true }

/-- Mark the ConstantPoolCache entry `c` as resolved. -/
def setMethodResolved (st : CPState) (c : Nat) : CPState :=
  { st with methodResolved := st.methodResolved.set c true }

/-- Mark the resolved-indy entry `i` as resolved. -/
def setIndyResolved (st : CPState) (i : Nat) : CPState :=
  { st with indyResolved := st.indyResolved.set i true }

/-- The external machinery invoked by the prelinker, abstracted as oracles:
the SystemDictionary lookup, the outcomes of `ConstantPool::klass_at`,
`InterpreterRuntime::resolve_get_put`, `cds_resolve_invoke`,
`cds_resolve_invokedynamic`, string interning, and the ConstantPoolCache
index decoding. -/
structure Oracles where
  dict : Loader → String → Option Nat := fun _ _ => none
  resolveClass : Nat → Option Nat := fun _ => none
  resolveField : Nat → Bool := fun _ => false
  resolveMethod : Nat → Bool := fun _ => false
  resolveIndy : Nat → Bool := fun _ => false
  internString : Nat → Bool := fun _ => true
  decodeCpcache : Nat → Nat := fun i => i

/-- The guard `preresolve_list != nullptr && preresolve_list->at(i) == false`:
the supplied training mask marks entry `i` as unexercised. -/
def maskSkips (mask : Option (List Bool)) (i : Nat) : Bool :=
  match mask with
  | some l => !(l.getD i false)
  | none => false

/-- The invoke opcodes that take the ConstantPoolCache-entry path in
`maybe_resolve_fmi_ref` (the field opcodes take the resolved-field-entry
path). -/
def isInvokeKindProcessed (bc : BC) : Bool :=
  bc == .invokehandle || bc == .invokestatic || bc == .invokespecial ||
  bc == .invokevirtual || (bc == .invokeinterface && UseNewCode)

/-- The constant-pool index that an instruction's operand resolves to,
through the cache-entry mappings (used to state the training-mask gating). -/
def scanInstrCpIndex (or : Oracles) (info : CPInfo) (bc : BC) (raw : Nat) : Nat :=
  if isInvokeKindProcessed bc then info.methodEntryCpIndex.getD (or.decodeCpcache raw) 0
  else info.fieldEntryCpIndex.getD raw 0

/-- Model of `InterpreterRuntime::resolve_get_put` outcome: on success the
resolved-field cache entry is marked resolved, on failure the fault
propagates (`CHECK`). -/
def resolve_get_put (or : Oracles) (raw : Nat) (st : CPState) : CPState × Option Fault :=
  if or.resolveField raw then (setFieldResolved st raw, none)
  else (st, some .resolutionError)

/-- Model of `InterpreterRuntime::cds_resolve_invoke` outcome on the ConstantPoolCache
entry `cpc?`. -/
def cds_resolve_invoke (or : Oracles) (cpc? : Option Nat) (st : CPState) : CPState × Option Fault :=
  match cpc? with
  | some c =>
    if or.resolveMethod c then (setMethodResolved st c, none)
    else (st, some .resolutionError)
  | none => (st, none)

/-- Model of `InterpreterRuntime::cds_resolve_invokehandle` outcome. -/
def cds_resolve_invokehandle (or : Oracles) (cpc? : Option Nat) (st : CPState) : CPState × Option Fault :=
  cds_resolve_invoke or cpc? st

/-- The bytecode switch at the end of `maybe_resolve_fmi_ref`, dispatching to
the link-time resolution routine for the instruction kind (`resolved_klass`
is the class resolved just before the switch). -/
def maybe_resolve_fmi_step4 (env : List Klass) (or : Oracles) (bc : BC)
    (raw : Nat) (cpc? : Option Nat) (resolved_klass : Nat) (st : CPState) :
    CPState × Option Fault :=
  match bc with
  | .getstatic | .putstatic =>
    if !UseNewCode then (st, none)
    else resolve_get_put or raw st
  | .nofast_getfield => resolve_get_put or raw st
  | .nofast_putfield => resolve_get_put or raw st
  | .getfield | .putfield => resolve_get_put or raw st
  | .invokevirtual => cds_resolve_invoke or cpc? st
  | .invokeinterface | .invokespecial =>
    if !UseNewCode then (st, none)
    else cds_resolve_invoke or cpc? st
  | .invokehandle => cds_resolve_invokehandle or cpc? st
  | .invokestatic =>
    if !UseNewCode && !((klassAt env resolved_klass).name == "java/lang/invoke/MethodHandle") &&
       !((klassAt env resolved_klass).name == "java/lang/invoke/MethodHandleNatives") then
      (st, none)
    else cds_resolve_invoke or cpc? st
  | .otherBC => (st, none)

/-- The class-component check of `maybe_resolve_fmi_ref`: skip when the
referenced class entry is unresolved-in-error or its target is not yet
loaded by the holder's loader; otherwise `cp->klass_ref_at(...)` resolves the
class entry (recording an error tag and propagating the fault on failure)
and the bytecode switch runs. -/
def maybe_resolve_fmi_step3 (env : List Klass) (or : Oracles) (kinfo : Klass)
    (info : CPInfo) (bc : BC) (raw cp_index : Nat) (cpc? : Option Nat)
    (st : CPState) : CPState × Option Fault :=
  let klass_cp_index := (entryAt info cp_index).klassRefIndex
  match tagAt st klass_cp_index with
  | .klassTag k => maybe_resolve_fmi_step4 env or bc raw cpc? k st
  | .unresolvedClassInError => (st, none)
  | _ =>
    if (find_loaded_class or.dict kinfo.loader (entryAt info klass_cp_index).klassName).isNone then
      (st, none)
    else
      match or.resolveClass klass_cp_index with
      | none => (setTag st klass_cp_index .unresolvedClassInError, some .resolutionError)
      | some k => maybe_resolve_fmi_step4 env or bc raw cpc? k (setTag st klass_cp_index (.klassTag k))

/-- The training-mask gate of `maybe_resolve_fmi_ref`: an entry the mask
marks unexercised is not resolved (unless the `UseNewCode2` gate is on). -/
def maybe_resolve_fmi_step2 (env : List Klass) (or : Oracles) (kinfo : Klass)
    (info : CPInfo) (bc : BC) (raw cp_index : Nat) (cpc? : Option Nat)
    (mask : Option (List Bool)) (st : CPState) : CPState × Option Fault :=
  if maskSkips mask cp_index then
    if UseNewCode2 then maybe_resolve_fmi_step3 env or kinfo info bc raw cp_index cpc? st
    else (st, none)
  else maybe_resolve_fmi_step3 env or kinfo info bc raw cp_index cpc? st

/-- Model of `ClassPrelinker::maybe_resolve_fmi_ref`: maps the instruction operand to
its constant-pool index through the appropriate cache entry (returning early
for an already-resolved invoke cache entry), then applies the mask gate, the
class-component checks and the resolution switch. -/
def maybe_resolve_fmi_ref (env : List Klass) (or : Oracles) (kinfo : Klass)
    (info : CPInfo) (bc : BC) (raw : Nat) (mask : Option (List Bool))
    (st : CPState) : CPState × Option Fault :=
  if isInvokeKindProcessed bc then
    let cpc_index := or.decodeCpcache raw
    if st.methodResolved.getD cpc_index false then (st, none)
    else
      maybe_resolve_fmi_step2 env or kinfo info bc raw
        (info.methodEntryCpIndex.getD cpc_index 0) (some cpc_index) mask st
  else
    maybe_resolve_fmi_step2 env or kinfo info bc raw
      (info.fieldEntryCpIndex.getD raw 0) none mask st

/-- One iteration of the bytecode scan of
`preresolve_field_and_method_cp_entries`: the opcode switch, with
fall-through gates for the not-yet-implemented kinds, and the
`CLEAR_PENDING_EXCEPTION` after each `maybe_resolve_fmi_ref` call (the
fault component is discarded). -/
def scan_one (env : List Klass) (or : Oracles) (fl : Flags) (kinfo : Klass)
    (info : CPInfo) (mask : Option (List Bool)) (st : CPState)
    (ins : BC × Nat) : CPState :=
  match ins.1 with
  | .getstatic | .putstatic =>
    if !UseNewCode then st
    else (maybe_resolve_fmi_ref env or kinfo info (java_code ins.1) ins.2 mask st).1
  | .getfield | .nofast_getfield | .putfield | .nofast_putfield =>
    (maybe_resolve_fmi_ref env or kinfo info (java_code ins.1) ins.2 mask st).1
  | .invokehandle =>
    if !fl.archiveInvokeDynamic && !UseNewCode then st
    else if !UseNewCode then st
    else (maybe_resolve_fmi_ref env or kinfo info ins.1 ins.2 mask st).1
  | .invokevirtual | .invokeinterface =>
    if !UseNewCode then st
    else (maybe_resolve_fmi_ref env or kinfo info ins.1 ins.2 mask st).1
  | .invokespecial | .invokestatic =>
    (maybe_resolve_fmi_ref env or kinfo info ins.1 ins.2 mask st).1
  | .otherBC => st

/-- Model of `ClassPrelinker::preresolve_field_and_method_cp_entries`: walks every
method's bytecode and applies the scan step; all faults are cleared at the
point of occurrence inside the loop, so the entry point never leaves a
pending fault. -/
def preresolve_field_and_method_cp_entries (env : List Klass) (or : Oracles)
    (fl : Flags) (kinfo : Klass) (info : CPInfo) (mask : Option (List Bool))
    (st : CPState) : CPState × Option Fault :=
  if !info.hasCache then (st, none)
  else
    (info.methods.foldl
      (fun s m => m.foldl (scan_one env or fl kinfo info mask) s) st, none)

/-- One iteration of `ClassPrelinker::preresolve_class_cp_entries`: an
unresolved class entry is skipped when the mask marks it unexercised or its
target is not yet loaded by the holder's loader; otherwise
`ConstantPool::klass_at` runs, recording the resolved class on success and
the error tag on failure (the exception is cleared locally). -/
def preresolve_class_step (or : Oracles) (kinfo : Klass) (info : CPInfo)
    (mask : Option (List Bool)) (st : CPState) (cp_index : Nat) : CPState :=
  if tagAt st cp_index = .unresolvedClass then
    if maskSkips mask cp_index then st
    else if (find_loaded_class or.dict kinfo.loader (entryAt info cp_index).klassName).isNone then st
    else
      match or.resolveClass cp_index with
      | some k => setTag st cp_index (.klassTag k)
      | none => setTag st cp_index .unresolvedClassInError
  else st

/-- Model of `ClassPrelinker::preresolve_class_cp_entries`: gated by
`PreloadSharedClasses` and the builtin-loader check, then the per-entry loop
over indices 1 .. length-1 (index 0 is unused). -/
def preresolve_class_cp_entries (or : Oracles) (fl : Flags) (kinfo : Klass)
    (info : CPInfo) (mask : Option (List Bool)) (st : CPState) :
    CPState × Option Fault :=
  if !fl.preloadSharedClasses then (st, none)
  else if !kinfo.builtinLoaderData then (st, none)
  else
    ((List.range' 1 (info.length - 1)).foldl (preresolve_class_step or kinfo info mask) st, none)

/-- The sequence of trained resolution passes applied per class at replay
(`runtime_preresolve`): class-entry resolution followed by the
field/method bytecode scan. -/
def trained_resolution_passes (env : List Klass) (or : Oracles) (fl : Flags)
    (kinfo : Klass) (info : CPInfo) (mask : Option (List Bool))
    (st : CPState) : CPState :=
  let st1 := (preresolve_class_cp_entries or fl kinfo info mask st).1
  (preresolve_field_and_method_cp_entries env or fl kinfo info mask st1).1

/-- Model of `ClassPrelinker::resolve_string`: a no-op unless the heap is being
dumped; interning may fail with an out-of-memory fault that propagates
(`CHECK`). -/
def resolve_string (fl : Flags) (or : Oracles) (cp_index : Nat) (st : CPState) :
    CPState × Option Fault :=
  if !fl.dumpingHeap then (st, none)
  else if or.internString cp_index then
    ({ st with resolvedStrings := cp_index :: st.resolvedStrings }, none)
  else (st, some .stringOOM)

/-- The string loop of `dumptime_resolve_constants`: every string entry is
resolved with `CHECK`, so the first interning fault aborts the loop and
propagates. -/
def dumptime_string_loop (fl : Flags) (or : Oracles) :
    List Nat → CPState → CPState × Option Fault
  | [], st => (st, none)
  | i :: rest, st =>
    if tagAt st i = .stringTag then
      match resolve_string fl or i st with
      | (st1, none) => dumptime_string_loop fl or rest st1
      | (st1, some f) => (st1, some f)
    else dumptime_string_loop fl or rest st

/-- Model of `ClassPrelinker::dumptime_resolve_constants`: returns immediately for an
unlinked class; otherwise marks the class in the processed table (returning
immediately when already marked), resolves all string entries (interning
faults propagate), and for regenerated or archivable-hidden classes of
builtin loaders eagerly runs the class and field/method passes with no
training mask. -/
def dumptime_resolve_constants (env : List Klass) (or : Oracles) (fl : Flags)
    (ik : Nat) (kinfo : Klass) (info : CPInfo) (pst : PrelinkState)
    (st : CPState) : PrelinkState × CPState × Option Fault :=
  if !kinfo.isLinked then (pst, st, none)
  else
    let procres := tablePutIfAbsent pst.processedClasses ik false
    let pst1 := { pst with processedClasses := procres.1 }
    if !procres.2 then (pst1, st, none)
    else
      match dumptime_string_loop fl or (List.range' 1 (info.length - 1)) st with
      | (st1, some f) => (pst1, st1, some f)
      | (st1, none) =>
        if kinfo.builtinLoaderData then
          if kinfo.mayBeRegenerated || (kinfo.hidden && kinfo.archivableHidden) then
            let r1 := preresolve_class_cp_entries or fl kinfo info none st1
            let r2 := preresolve_field_and_method_cp_entries env or fl kinfo info none r1.1
            (pst1, r2.1, r2.2)
          else (pst1, st1, none)
        else (pst1, st1, none)

/-- Model of `bootstrap_method_ref_index_at` then `method_handle_index_at`: the
constant-pool index of the bootstrap method reference of an indy entry. -/
def indy_bsm_ref (info : CPInfo) (cp_index : Nat) : Nat :=
  (entryAt info ((entryAt info cp_index).bsmRefIndex)).mhRefIndex

/-- The name symbol of an indy entry's bootstrap method. -/
def indy_bsm_name (info : CPInfo) (cp_index : Nat) : String :=
  (entryAt info (indy_bsm_ref info cp_index)).name

/-- The signature symbol of an indy entry's bootstrap method. -/
def indy_bsm_signature (info : CPInfo) (cp_index : Nat) : String :=
  (entryAt info (indy_bsm_ref info cp_index)).signature

/-- The class symbol of an indy entry's bootstrap method. -/
def indy_bsm_klass (info : CPInfo) (cp_index : Nat) : String :=
  (entryAt info ((entryAt info (indy_bsm_ref info cp_index)).klassRefIndex)).klassName

/-- The `LambdaMetafactory::metafactory` signature accepted by the allow-list. -/
def metafactorySignature : String :=
  "(Ljava/lang/invoke/MethodHandles$Lookup;Ljava/lang/String;Ljava/lang/invoke/MethodType;Ljava/lang/invoke/MethodType;Ljava/lang/invoke/MethodHandle;Ljava/lang/invoke/MethodType;)Ljava/lang/invoke/CallSite;"

/-- The `LambdaMetafactory::altMetafactory` signature accepted by the allow-list. -/
def altMetafactorySignature : String :=
  "(Ljava/lang/invoke/MethodHandles$Lookup;Ljava/lang/String;Ljava/lang/invoke/MethodType;[Ljava/lang/Object;)Ljava/lang/invoke/CallSite;"

/-- The file-static `has_clinit`: the class, its supertype chain or any
reachable superinterface declares a class initializer.  Fuel-based recursion
as for `is_subtype_of_fuel`. -/
def has_clinit (env : List Klass) : Nat → Nat → Bool
  | 0, _ => false
  | fuel + 1, ik =>
    if (klassAt env ik).hasLocalClinit then true
    else
      (match (klassAt env ik).superIdx with
       | some s => has_clinit env fuel s
       | none => false) ||
      (klassAt env ik).interfaces.any (fun j => has_clinit env fuel j)

/-- Model of `ClassPrelinker::is_indy_archivable`: gated by `ArchiveInvokeDynamic`,
heap writability and the builtin-loader check; then the fixed allow-list of
bootstrap patterns (string concat, `LambdaMetafactory::metafactory` /
`altMetafactory`); for the lambda case the functional interface type must be
loaded, be an interface, and have no static initializer anywhere in its
hierarchy. -/
def is_indy_archivable (env : List Klass) (or : Oracles) (fl : Flags)
    (kinfo : Klass) (info : CPInfo) (cp_index : Nat) : Bool :=
  if !fl.archiveInvokeDynamic || !fl.heapCanWrite then false
  else if !kinfo.isBuiltin then false
  else if indy_bsm_klass info cp_index == "java/lang/invoke/StringConcatFactory" &&
          indy_bsm_name info cp_index == "makeConcatWithConstants" then true
  else if indy_bsm_klass info cp_index == "java/lang/invoke/LambdaMetafactory" &&
          ((indy_bsm_name info cp_index == "metafactory" &&
            indy_bsm_signature info cp_index == metafactorySignature) ||
           (indy_bsm_name info cp_index == "altMetafactory" &&
            indy_bsm_signature info cp_index == altMetafactorySignature)) then
    match find_loaded_class or.dict kinfo.loader (entryAt info cp_index).returnTypeName with
    | none => false
    | some k =>
      if !(klassAt env k).isInterface then false
      else if has_clinit env (k + 1) k then false
      else true
  else false

/-- One iteration of `ClassPrelinker::preresolve_indy_cp_entries`: resolve a
not-yet-resolved indy entry when the mask marks it exercised and the
allow-list accepts it; resolution faults are cleared locally. -/
def preresolve_indy_step (env : List Klass) (or : Oracles) (fl : Flags)
    (kinfo : Klass) (info : CPInfo) (mask : Option (List Bool))
    (st : CPState) (i : Nat) : CPState :=
  let cp_index := info.indyEntries.getD i 0
  if (match mask with | some l => l.getD cp_index false | none => false) &&
     !(st.indyResolved.getD i false) &&
     is_indy_archivable env or fl kinfo info cp_index then
    if or.resolveIndy i then setIndyResolved st i else st
  else if UseNewCode && !(st.indyResolved.getD i false) then
    if or.resolveIndy i then setIndyResolved st i else st
  else st

/-- Model of `ClassPrelinker::preresolve_indy_cp_entries`: gated by
`ArchiveInvokeDynamic`/`UseNewCode` and the cache presence, then the loop
over the resolved-indy entries; all faults cleared locally. -/
def preresolve_indy_cp_entries (env : List Klass) (or : Oracles) (fl : Flags)
    (kinfo : Klass) (info : CPInfo) (mask : Option (List Bool))
    (st : CPState) : CPState × Option Fault :=
  if !(fl.archiveInvokeDynamic || UseNewCode) || !info.hasCache then (st, none)
  else
    ((List.range info.indyEntries.length).foldl
      (preresolve_indy_step env or fl kinfo info mask) st, none)

/-- Modelled from the spec: `InstanceKlass::find_field` on the referenced
class — the field-lookup machinery is outside the examined source; per the
spec it verifies that "the field exists, has a compatible descriptor", i.e. a
field with the referenced name and signature is found, and reports its flags. -/
def find_field (k : Klass) (fname fsig : String) : Option FieldInfo :=
  k.fields.find? (fun f => f.fname == fname && f.fsig == fsig)

/-- Model of `ClassPrelinker::get_fmi_ref_resolved_archivable_klass`: the class
component of a field/method entry must already be resolved and pass
`can_archive_resolved_klass` (whose initiated-table side effects are kept). -/
def get_fmi_ref_resolved_archivable_klass (env : List Klass) (st : PrelinkState)
    (holder : Nat) (info : CPInfo) (cst : CPState) (cp_index : Nat) :
    Option Nat × PrelinkState :=
  match tagAt cst ((entryAt info cp_index).klassRefIndex) with
  | .klassTag k =>
    let res := can_archive_resolved_klass env st holder k
    if res.1 then (some k, res.2) else (none, res.2)
  | _ => (none, st)

/-- Model of `ClassPrelinker::can_archive_resolved_field`: the declaring class must be
archivable, and the referenced field must exist and be non-static. -/
def can_archive_resolved_field (env : List Klass) (st : PrelinkState)
    (holder : Nat) (info : CPInfo) (cst : CPState) (cp_index : Nat) :
    Bool × PrelinkState :=
  match get_fmi_ref_resolved_archivable_klass env st holder info cst cp_index with
  | (none, st1) => (false, st1)
  | (some k, st1) =>
    match find_field (klassAt env k) (entryAt info cp_index).name (entryAt info cp_index).signature with
    | none => (false, st1)
    | some fd => if fd.isStatic then (false, st1) else (true, st1)

/-- One `PreloadedKlasses` table: the per-tier preload lists and the
initiated-only lists. -/
structure PreloadedKlasses where
  boot : List Nat := []
  boot2 : List Nat := []
  platform : List Nat := []
  app : List Nat := []
  platformInitiated : List Nat := []
  appInitiated : List Nat := []
deriving DecidableEq

/-- The mutable replay-side globals: `_class_preloading_finished` and
`_preload_javabase_only`. -/
structure ReplayState where
  classPreloadingFinished : Bool := false
  preloadJavabaseOnly : Bool := true
deriving DecidableEq

/-- The replay-side configuration: `UseSharedSpaces`,
`SystemDictionaryShared::has_platform_or_app_classes()`, and the two
deserialized tables. -/
structure ReplayConfig where
  useSharedSpaces : Bool := true
  hasPlatformOrAppClasses : Bool := true
  staticPreloaded : PreloadedKlasses := {}
  dynamicPreloaded : PreloadedKlasses := {}
deriving DecidableEq

/-- The external class-loading machinery used during replay:
`SystemDictionary::load_instance_class` /
`SystemDictionaryShared::find_or_load_shared_class` (`none` = exception),
the hidden-class restore path and `initialize_from_cds`. -/
structure ReplayOracles where
  loadClass : Loader → Nat → Option Nat := fun _ ik => some ik
  preloadHidden : Nat → Option Fault := fun _ => none
  initFromCDS : Nat → Option Fault := fun _ => none

/-- The tolerated mismatch of `ClassPrelinker::jvmti_agent_error`: a shared
regenerated class of the same name may legitimately exist in two variants. -/
def jvmti_agent_tolerated (env : List Klass) (expected actual : Nat) : Bool :=
  (klassAt env actual).isShared &&
  ((klassAt env expected).name == (klassAt env actual).name) &&
  (klassAt env expected).mayBeRegenerated

/-- The preload loop of `runtime_preload`: load every not-yet-loaded listed
class (hidden classes via the lighter restore path), treating an identity
mismatch as fatal unless tolerated; load faults propagate (`CHECK`). -/
def runtime_preload_klasses (env : List Klass) (wor : ReplayOracles)
    (loader : Loader) : List Nat → Option Fault
  | [] => none
  | ik :: rest =>
    if !(klassAt env ik).isLoaded then
      if (klassAt env ik).hidden then
        match wor.preloadHidden ik with
        | some f => some f
        | none => runtime_preload_klasses env wor loader rest
      else
        match wor.loadClass loader ik with
        | none => some .resolutionError
        | some actual =>
          if actual != ik then
            if jvmti_agent_tolerated env ik actual then
              runtime_preload_klasses env wor loader rest
            else some .fatalMismatch
          else runtime_preload_klasses env wor loader rest
    else runtime_preload_klasses env wor loader rest

/-- The initialization catch-up loop of `runtime_preload`: classes with a
preinitialized mirror are restored via `initialize_from_cds` (`CHECK`);
others are pre-linked only under the `UseNewCode` gate (with the fault
cleared). -/
def runtime_init_klasses (env : List Klass) (wor : ReplayOracles) :
    List Nat → Option Fault
  | [] => none
  | ik :: rest =>
    if (klassAt env ik).hasPreinitializedMirror then
      match wor.initFromCDS ik with
      | some f => some f
      | none => runtime_init_klasses env wor rest
    else runtime_init_klasses env wor rest

/-- Model of `ClassPrelinker::runtime_preload(PreloadedKlasses*, Handle, TRAPS)`: picks
the tier's lists (boot vs boot2 according to `_preload_javabase_only`),
registers the initiated-only classes with the loader (an effect on the
external SystemDictionary, not on the modelled state), loads the preload
list, and for non-javabase passes runs the initialization catch-up.  Fatal
identity mismatches terminate the process in the source; here they are
threaded as a fault. -/
def runtime_preload_table (env : List Klass) (wor : ReplayOracles)
    (table : PreloadedKlasses) (st : ReplayState) (loader : Loader) : Option Fault :=
  let preloaded :=
    match loader with
    | .boot => if st.preloadJavabaseOnly then table.boot else table.boot2
    | .platform => table.platform
    | .app => table.app
  match runtime_preload_klasses env wor loader preloaded with
  | some f => some f
  | none =>
    if !st.preloadJavabaseOnly then runtime_init_klasses env wor preloaded
    else none

/-- Model of `ClassPrelinker::runtime_preload(JavaThread*, Handle)`: the per-tier
entry point, invoked once per tier in the order boot, boot2, platform, app.
When shared spaces are off it does nothing.  When non-boot classes were
disabled by a command-line mismatch, the finished flag is published
immediately.  Otherwise the static then dynamic tables are replayed,
`_preload_javabase_only` is cleared, and after the application tier the
finished flag is published (release store).  The second component records
whether a pending fault reaches the `ExceptionMark` (fatal in the source). -/
def runtime_preload (cfg : ReplayConfig) (env : List Klass) (wor : ReplayOracles)
    (st : ReplayState) (loader : Loader) : ReplayState × Bool :=
  if cfg.useSharedSpaces then
    if loader != .boot && !cfg.hasPlatformOrAppClasses then
      ({ st with classPreloadingFinished := true }, false)
    else
      let f1 := runtime_preload_table env wor cfg.staticPreloaded st loader
      let f2 :=
        match f1 with
        | none => runtime_preload_table env wor cfg.dynamicPreloaded st loader
        | some f => some f
      let st1 := { st with preloadJavabaseOnly := false }
      let st2 :=
        if loader == .app then { st1 with classPreloadingFinished := true } else st1
      (st2, f2.isSome)
  else (st, false)

/-- Model of `ClassPrelinker::class_preloading_finished`: true without shared spaces,
otherwise the flag (acquire load in the source). -/
def class_preloading_finished (cfg : ReplayConfig) (st : ReplayState) : Bool :=
  if !cfg.useSharedSpaces then true
  else st.classPreloadingFinished

/-- The resolution state of constant-pool entry `K` is identical in `s` and
`s'`: same tag, same resolved bits of every field/method cache entry and indy
entry that maps to `K`, same interned status. -/
def cpEntryStateUnchanged (info : CPInfo) (K : Nat) (s s' : CPState) : Prop :=
  s'.tags.getD K .otherTag = s.tags.getD K .otherTag ∧
  (∀ r, info.fieldEntryCpIndex.getD r 0 = K →
    s'.fieldResolved.getD r false = s.fieldResolved.getD r false) ∧
  (∀ c, info.methodEntryCpIndex.getD c 0 = K →
    s'.methodResolved.getD c false = s.methodResolved.getD c false) ∧
  (∀ i, info.indyEntries.getD i 0 = K →
    s'.indyResolved.getD i false = s.indyResolved.getD i false) ∧
  ((K ∈ s'.resolvedStrings) ↔ (K ∈ s.resolvedStrings))

/-- The opcodes whose instructions reach `maybe_resolve_fmi_ref` in the
bytecode scan with the diagnostic gates at their defaults. -/
def scannedOpcode : BC → Bool
  | .getfield | .putfield | .nofast_getfield | .nofast_putfield => true
  | .invokespecial | .invokestatic => true
  | _ => false

/-- When A's tier has a dedicated initiated table, a record of `target` in
it; for the boot tier — which has no initiated table of its own — any
initiated record of `target` at all is accepted (the generous reading of
"records an initiated-class relationship under A's tier"). -/
def recordedInitiated (st : PrelinkState) (t : LoaderType) (target : Nat) : Bool :=
  match t with
  | .platform => tableHas st.platformInitiated target
  | .app => tableHas st.appInitiated target
  | _ => tableHas st.platformInitiated target || tableHas st.appInitiated target

/-- The loaderType/loader consistency of a real (non-junk) class: a
platform-tier class is loaded by the platform loader, an app-tier class by
the system loader. -/
def loader_matches_type (k : Klass) : Prop :=
  (k.loaderType = .platform → k.loader = .platform) ∧
  (k.loaderType = .app → k.loader = .app)

instance (k : Klass) : Decidable (loader_matches_type k) := by
  unfold loader_matches_type
  infer_instance

/-- Concrete input for C1: index 0 is a boot-tier class, index 1 a
platform-tier class; neither is a supertype of the other. -/
def c1CexEnv : List Klass :=
  [{ loaderType := .boot, loader := .boot, name := "BootHolder" },
   { loaderType := .platform, loader := .platform, name := "PlatTarget" }]

/-- Concrete state for C1: class 1 is preloaded, nothing else is recorded. -/
def c1CexState : PrelinkState :=
  { preloadedClasses := [(1, true)] }

/-- Concrete input for the C1 witness: index 0 a boot-tier class, index 1 an
app-tier class referencing it. -/
def c1WitEnv : List Klass :=
  [{ loaderType := .boot, loader := .boot, name := "BootTarget" },
   { loaderType := .app, loader := .app, name := "AppHolder" }]

/-- Concrete state for the C1 witness: the boot class 0 is preloaded. -/
def c1WitState : PrelinkState :=
  { preloadedClasses := [(0, true)] }

/-- Concrete pool description for C3: entry 1 is a field reference whose
class component is entry 2, an unresolved class named `Foo`; one method with
a single `getfield` whose resolved-field cache entry 0 maps to entry 1. -/
def c3Info : CPInfo :=
  { length := 3,
    entries := [{}, { klassRefIndex := 2, name := "f", signature := "I" },
                { klassName := "Foo" }],
    fieldEntryCpIndex := [1],
    methods := [[(BC.getfield, 0)]] }

/-- Concrete holder class for C3 (boot loader, builtin). -/
def c3Kinfo : Klass :=
  { loaderType := .boot, loader := .boot }

/-- Concrete pool state for C3: entry 2 is an unresolved class. -/
def c3State : CPState :=
  { tags := [.otherTag, .fieldRef, .unresolvedClass], fieldResolved := [false] }

/-- Concrete oracles for C3: `Foo` is loaded (as class 7) and every
resolution succeeds. -/
def c3Or : Oracles :=
  { dict := fun _ n => if n == "Foo" then some 7 else none,
    resolveClass := fun i => if i == 2 then some 7 else none,
    resolveField := fun _ => true }

/-- Concrete training mask for the C3 counterexample: the field entry 1 is
exercised, the class entry 2 is not. -/
def c3Mask : List Bool := [false, true, false]

/-- Concrete training mask for the C3 witness: nothing is exercised. -/
def c3WitMask : List Bool := [false, false, false]

/-- Concrete pool description for C4: entry 1 is a string entry. -/
def c4Info : CPInfo :=
  { length := 2, entries := [{}, {}] }

/-- Concrete pool state for C4: entry 1 carries the string tag. -/
def c4State : CPState :=
  { tags := [.otherTag, .stringTag] }

/-- Concrete oracles for C4: string interning fails (out of memory). -/
def c4Or : Oracles :=
  { internString := fun _ => false }

/-- Concrete class for the C6 counterexample: not linked. -/
def c6Kinfo : Klass :=
  { isLinked := false }

/-- Concrete class for the C6 witness: linked, nothing eager. -/
def c6WitKinfo : Klass :=
  { isLinked := true, mayBeRegenerated := false, hidden := false }

/-- Concrete environment for C7: class 0 is an interface with a static
initializer. -/
def c7Env : List Klass :=
  [{ isInterface := true, hasLocalClinit := true, name := "MyFunctionalItf" }]

/-- Concrete pool description for C7: entry 0 is the indy entry
(`bsmRefIndex` 1, functional interface type `MyFunctionalItf`), entry 1 the
bootstrap-methods entry (`mhRefIndex` 2), entry 2 the method reference of
`LambdaMetafactory::metafactory` (class component entry 3). -/
def c7Info : CPInfo :=
  { length := 4,
    entries := [{ bsmRefIndex := 1, returnTypeName := "MyFunctionalItf" },
                { mhRefIndex := 2 },
                { klassRefIndex := 3, name := "metafactory", signature := metafactorySignature },
                { klassName := "java/lang/invoke/LambdaMetafactory" }] }

/-- Concrete oracles for C7: `MyFunctionalItf` is loaded as class 0. -/
def c7Or : Oracles :=
  { dict := fun _ n => if n == "MyFunctionalItf" then some 0 else none }

/-- Concrete flags for C7: dynamic-call-site archiving enabled. -/
def c7Flags : Flags :=
  { archiveInvokeDynamic := true, heapCanWrite := true }

/-- Concrete environment for C8: class 0 declares an instance field `x:I`
and a static field `s:I`; class 1 extends it. -/
def c8Env : List Klass :=
  [{ loaderType := .boot, loader := .boot, name := "FieldHolder",
     fields := [{ fname := "x", fsig := "I" }, { fname := "s", fsig := "I", isStatic := true }] },
   { superIdx := some 0, loaderType := .boot, loader := .boot, name := "Referencing" }]

/-- Concrete pool description for C8: entry 1 is a field reference `x:I`
with class component entry 2; entry 3 references the static field `s:I`. -/
def c8Info : CPInfo :=
  { length := 4,
    entries := [{}, { klassRefIndex := 2, name := "x", signature := "I" },
                {}, { klassRefIndex := 2, name := "s", signature := "I" }] }

/-- Concrete pool state for C8: the class component entry 2 is resolved to
class 0. -/
def c8Cst : CPState :=
  { tags := [.otherTag, .fieldRef, .klassTag 0, .fieldRef] }

/-- Concrete environment for C10: index 1 is an array class (not an
instance class). -/
def c10Env : List Klass :=
  [{ loaderType := .boot, loader := .boot },
   { isInstanceKlass := false, name := "[Ljava/lang/Object;" }]

/-- Concrete state for C10: the array class is even recorded as preloaded,
to show the refusal does not depend on the preloaded status. -/
def c10State : PrelinkState :=
  { preloadedClasses := [(1, true)] }

theorem tableHas_putIfAbsent_self (t : List (Nat × Bool)) (k : Nat) (v : Bool) :
    tableHas (tablePutIfAbsent t k v).1 k = true := by
  unfold tablePutIfAbsent
  split
  · assumption
  · simp [tableHas]

theorem tableHas_putIfAbsent_mono (t : List (Nat × Bool)) (k : Nat) (v : Bool) (x : Nat)
    (h : tableHas t x = true) :
    tableHas (tablePutIfAbsent t k v).1 x = true := by
  unfold tablePutIfAbsent
  split
  · exact h
  · simp only [tableHas, List.any_cons] at h ⊢
    simp [h]

theorem tableHas_putIfAbsent_elim (t : List (Nat × Bool)) (k : Nat) (v : Bool) (x : Nat)
    (h : tableHas (tablePutIfAbsent t k v).1 x = true) :
    x = k ∨ tableHas t x = true := by
  unfold tablePutIfAbsent at h
  split at h
  · exact Or.inr h
  · simp only [tableHas, List.any_cons, Bool.or_eq_true, beq_iff_eq] at h
    rcases h with h | h
    · exact Or.inl h.symm
    · exact Or.inr h

theorem tableHas_add_initiated_self (t : List (Nat × Bool)) (k : Nat) :
    tableHas (add_initiated_klass_table t k) k = true :=
  tableHas_putIfAbsent_self t k true

/-- C10: for every referencing class A and every referenced class B that is
not an instance class (in particular, every array class),
`can_archive_resolved_klass` returns false and leaves the state unchanged,
regardless of A and of B's preloaded or runtime-essential status. -/
theorem c10_non_instance_reference_rejected (env : List Klass) (st : PrelinkState)
    (a b : Nat) (hb : (klassAt env b).isInstanceKlass = false) :
    can_archive_resolved_klass env st a b = (false, st) := by
  simp [can_archive_resolved_klass, hb]

/-- C10 witness: the boot class 0 referencing the array class 1 (which is
even in the preloaded set) is refused. -/
theorem c10_non_instance_reference_rejected_witness :
    can_archive_resolved_klass c10Env c10State 0 1 = (false, c10State) :=
  c10_non_instance_reference_rejected c10Env c10State 0 1 (by decide)

/-- C1 (amended): for a referencing class A of boot, platform or application
tier and a preloaded referenced instance class B that is not a supertype or
interface of A, with A not runtime-essential, `can_archive_resolved_klass`
returns true; when A's tier is platform or application and differs from B's
defining tier, B is additionally recorded in the initiated table of A's tier.
(When A's tier is boot no initiated record is made: the code has no
boot-initiated table and asserts that B is then also boot-defined.) -/
theorem c1_preloaded_reference_archived (env : List Klass) (st : PrelinkState)
    (a b : Nat)
    (hbik : (klassAt env b).isInstanceKlass = true)
    (hpre : is_preloaded_class st b = true)
    (hsub : is_subtype_of env a b = false)
    (hvm : is_vm_class st a = false)
    (htier : (klassAt env a).loaderType ≠ .other)
    (hld : loader_matches_type (klassAt env a)) :
    (can_archive_resolved_klass env st a b).1 = true ∧
    ((klassAt env a).loaderType = .platform → (klassAt env b).loaderType ≠ .platform →
      tableHas (can_archive_resolved_klass env st a b).2.platformInitiated b = true) ∧
    ((klassAt env a).loaderType = .app → (klassAt env b).loaderType ≠ .app →
      tableHas (can_archive_resolved_klass env st a b).2.appInitiated b = true) := by
  have hsub' : is_subtype_of_fuel env (a + 1) a b = false := hsub
  cases ht : (klassAt env a).loaderType with
  | boot =>
    refine ⟨?_, ?_, ?_⟩
    · simp [can_archive_resolved_klass, is_subtype_of, hbik, hpre, hsub', hvm, ht]
    · intro h
      exact absurd h (by decide)
    · intro h
      exact absurd h (by decide)
  | platform =>
    have hlo : (klassAt env a).loader = .platform := hld.1 ht
    refine ⟨?_, ?_, ?_⟩
    · simp [can_archive_resolved_klass, is_subtype_of, hbik, hpre, hsub', hvm, ht]
    · intro _ hne
      have hne2 : ¬ (LoaderType.platform = (klassAt env b).loaderType) :=
        fun h => hne h.symm
      simp [can_archive_resolved_klass, is_subtype_of, hbik, hpre, hsub', hvm, ht,
        add_initiated_klass, hne2, is_platform_class_loader, hlo,
        tableHas_add_initiated_self]
    · intro h
      exact absurd h (by decide)
  | app =>
    have hlo : (klassAt env a).loader = .app := hld.2 ht
    refine ⟨?_, ?_, ?_⟩
    · simp [can_archive_resolved_klass, is_subtype_of, hbik, hpre, hsub', hvm, ht]
    · intro h
      exact absurd h (by decide)
    · intro _ hne
      have hne2 : ¬ (LoaderType.app = (klassAt env b).loaderType) :=
        fun h => hne h.symm
      simp [can_archive_resolved_klass, is_subtype_of, hbik, hpre, hsub', hvm, ht,
        add_initiated_klass, hne2, is_platform_class_loader, hlo,
        tableHas_add_initiated_self]
  | other => exact absurd ht htier

/-- C1 witness: an application-tier class referencing a preloaded boot-tier
class is archived and produces an app-initiated record. -/
theorem c1_preloaded_reference_archived_witness :
    (can_archive_resolved_klass c1WitEnv c1WitState 1 0).1 = true ∧
    tableHas (can_archive_resolved_klass c1WitEnv c1WitState 1 0).2.appInitiated 0 = true := by
  have h := c1_preloaded_reference_archived c1WitEnv c1WitState 1 0
    (by decide) (by decide) (by decide) (by decide) (by decide) (by decide)
  exact ⟨h.1, h.2.2 (by decide) (by decide)⟩

/-- C1 counterexample: a boot-tier class referencing a preloaded
platform-tier class (not a supertype, holder not runtime-essential) makes
`can_archive_resolved_klass` return true, the tiers differ, and yet no
initiated-class record of any kind is made — the state is returned
unchanged.  This refutes the claim's recording clause for the boot tier. -/
theorem c1_counterexample :
    is_preloaded_class c1CexState 1 = true ∧
    is_subtype_of c1CexEnv 0 1 = false ∧
    is_vm_class c1CexState 0 = false ∧
    (klassAt c1CexEnv 0).loaderType = .boot ∧
    (klassAt c1CexEnv 0).loaderType ≠ (klassAt c1CexEnv 1).loaderType ∧
    (can_archive_resolved_klass c1CexEnv c1CexState 0 1).1 = true ∧
    (can_archive_resolved_klass c1CexEnv c1CexState 0 1).2 = c1CexState ∧
    recordedInitiated (can_archive_resolved_klass c1CexEnv c1CexState 0 1).2
      (klassAt c1CexEnv 0).loaderType 1 = false := by
  decide

/-- C2: for every pair (A, B) where B is not a (transitive) supertype or
interface of A and B is not in the preloaded set,
`can_archive_resolved_klass` returns false.  The hypothesis `hinv` is the
program invariant that every vm-class is also preloaded (instantiated at B):
`add_one_vm_class` inserts every class into both tables. -/
theorem c2_unpreloaded_reference_rejected (env : List Klass) (st : PrelinkState)
    (a b : Nat)
    (hsub : is_subtype_of env a b = false)
    (hpre : is_preloaded_class st b = false)
    (hinv : is_vm_class st b = true → is_preloaded_class st b = true) :
    (can_archive_resolved_klass env st a b).1 = false := by
  cases hbik : (klassAt env b).isInstanceKlass with
  | false => simp [can_archive_resolved_klass, hbik]
  | true =>
    have hvb : is_vm_class st b = false := by
      cases h : is_vm_class st b with
      | false => rfl
      | true => exact absurd (hinv h) (by simp [hpre])
    cases hva : is_vm_class st a with
    | false => simp [can_archive_resolved_klass, hbik, hsub, hva, hpre]
    | true => simp [can_archive_resolved_klass, hbik, hsub, hva, hvb]

/-- C2 witness: a boot class referencing an application-tier class that is
not preloaded is refused. -/
theorem c2_unpreloaded_reference_rejected_witness :
    (can_archive_resolved_klass c1WitEnv ({} : PrelinkState) 0 1).1 = false :=
  c2_unpreloaded_reference_rejected c1WitEnv {} 0 1 (by decide) (by decide) (by decide)

theorem add_one_vm_class_vm_subset_preloaded (env : List Klass) :
    ∀ (fuel : Nat) (st : PrelinkState) (ik : Nat),
      (∀ c, tableHas st.vmClasses c = true → tableHas st.preloadedClasses c = true) →
      ∀ c, tableHas (add_one_vm_class env fuel st ik).vmClasses c = true →
        tableHas (add_one_vm_class env fuel st ik).preloadedClasses c = true := by
  intro fuel
  induction fuel with
  | zero =>
    intro st ik h c
    exact h c
  | succ f ih =>
    intro st ik h c
    have fold_pres : ∀ (l : List Nat) (stx : PrelinkState),
        (∀ c2, tableHas stx.vmClasses c2 = true → tableHas stx.preloadedClasses c2 = true) →
        ∀ c2, tableHas ((l.foldl (add_one_vm_class env f) stx)).vmClasses c2 = true →
          tableHas ((l.foldl (add_one_vm_class env f) stx)).preloadedClasses c2 = true := by
      intro l
      induction l with
      | nil => intro stx hx c2; exact hx c2
      | cons j tl ihl =>
        intro stx hx c2
        exact ihl (add_one_vm_class env f stx j) (ih stx j hx) c2
    cases hmem : tableHas st.vmClasses ik with
    | true =>
      have hput : tablePutIfAbsent st.vmClasses ik false = (st.vmClasses, false) := by
        simp [tablePutIfAbsent, hmem]
      simp only [add_one_vm_class, hput]
      intro hc
      exact tableHas_putIfAbsent_mono st.preloadedClasses ik false c (h c hc)
    | false =>
      have hput : tablePutIfAbsent st.vmClasses ik false =
          ((ik, false) :: st.vmClasses, true) := by
        simp [tablePutIfAbsent, hmem]
      have hbase : ∀ c2,
          tableHas ((ik, false) :: st.vmClasses) c2 = true →
          tableHas ((tablePutIfAbsent st.preloadedClasses ik false)).1 c2 = true := by
        intro c2 hc2
        rcases tableHas_putIfAbsent_elim st.vmClasses ik false c2
            (by rw [hput]; exact hc2) with he | he
        · subst he
          exact tableHas_putIfAbsent_self st.preloadedClasses c2 false
        · exact tableHas_putIfAbsent_mono st.preloadedClasses ik false c2 (h c2 he)
      cases hsup : (klassAt env ik).superIdx with
      | some s =>
        simp only [add_one_vm_class, hput, hsup]
        exact fold_pres (klassAt env ik).interfaces _
          (ih { st with
                  preloadedClasses := (tablePutIfAbsent st.preloadedClasses ik false).1,
                  vmClasses := (ik, false) :: st.vmClasses,
                  numVmKlasses := st.numVmKlasses + 1 } s hbase) c
      | none =>
        simp only [add_one_vm_class, hput, hsup]
        exact fold_pres (klassAt env ik).interfaces _ hbase c

/-- C7: for every lambda-metafactory-style dynamic call site (bootstrap class
`LambdaMetafactory`, method `metafactory` or `altMetafactory` with the
allow-listed signature), `is_indy_archivable` returns false whenever the
call site's target functional interface transitively declares a static
initializer. -/
theorem c7_lambda_clinit_rejected (env : List Klass) (or : Oracles) (fl : Flags)
    (kinfo : Klass) (info : CPInfo) (cp_index k : Nat)
    (hbsm : indy_bsm_klass info cp_index = "java/lang/invoke/LambdaMetafactory")
    (_hname : (indy_bsm_name info cp_index = "metafactory" ∧
              indy_bsm_signature info cp_index = metafactorySignature) ∨
             (indy_bsm_name info cp_index = "altMetafactory" ∧
              indy_bsm_signature info cp_index = altMetafactorySignature))
    (hload : find_loaded_class or.dict kinfo.loader (entryAt info cp_index).returnTypeName = some k)
    (hcl : has_clinit env (k + 1) k = true) :
    is_indy_archivable env or fl kinfo info cp_index = false := by
  unfold is_indy_archivable
  split
  · rfl
  split
  · rfl
  split
  · rename_i hcond
    simp only [Bool.and_eq_true, beq_iff_eq] at hcond
    rw [hbsm] at hcond
    exact absurd hcond.1 (by decide)
  split
  · simp only [hload]
    split
    · rfl
    · simp [hcl]
  · rfl

/-- C7 witness: a metafactory call site whose functional interface carries a
static initializer is rejected. -/
theorem c7_lambda_clinit_rejected_witness :
    is_indy_archivable c7Env c7Or c7Flags {} c7Info 0 = false :=
  c7_lambda_clinit_rejected c7Env c7Or c7Flags {} c7Info 0 0 (by decide)
    (Or.inl ⟨by decide, by decide⟩) (by decide) (by decide)

/-- C8: for every resolved field reference whose declaring class is
archivable, `can_archive_resolved_field` returns true if and only if the
referenced class has a field of the referenced name and signature that is an
instance (non-static) field; a missing field or a static field makes it
return false. -/
theorem c8_field_archivable_iff (env : List Klass) (st : PrelinkState)
    (holder : Nat) (info : CPInfo) (cst : CPState) (cp_index k : Nat)
    (htag : tagAt cst ((entryAt info cp_index).klassRefIndex) = .klassTag k)
    (harch : (can_archive_resolved_klass env st holder k).1 = true) :
    ((can_archive_resolved_field env st holder info cst cp_index).1 = true ↔
      ∃ fd, find_field (klassAt env k) (entryAt info cp_index).name
              (entryAt info cp_index).signature = some fd ∧ fd.isStatic = false) := by
  unfold can_archive_resolved_field get_fmi_ref_resolved_archivable_klass
  rw [htag]
  simp only [harch, if_true]
  cases hff : find_field (klassAt env k) (entryAt info cp_index).name
      (entryAt info cp_index).signature with
  | none => simp [hff]
  | some fd =>
    cases hstat : fd.isStatic with
    | false => simp [hff, hstat]
    | true => simp [hff, hstat]

/-- C8 witness: the instance field `x:I` of the archivable superclass makes
the field reference archivable. -/
theorem c8_field_archivable_iff_witness :
    (can_archive_resolved_field c8Env ({} : PrelinkState) 1 c8Info c8Cst 1).1 = true :=
  (c8_field_archivable_iff c8Env {} 1 c8Info c8Cst 1 0 (by decide) (by decide)).mpr
    ⟨{ fname := "x", fsig := "I" }, by decide, rfl⟩

theorem runtime_preload_flag_cases (cfg : ReplayConfig) (env : List Klass)
    (wor : ReplayOracles) (st : ReplayState) (loader : Loader) :
    (runtime_preload cfg env wor st loader).1.classPreloadingFinished =
      st.classPreloadingFinished ∨
    (runtime_preload cfg env wor st loader).1.classPreloadingFinished = true := by
  unfold runtime_preload
  dsimp only
  split
  · split
    · right
      rfl
    · split
      · right
        rfl
      · left
        rfl
  · left
    rfl

/-- C9: the process-wide preloading-finished flag starts false; each
per-tier replay invocation either leaves it unchanged or performs the single
monotone transition false-to-true; and the application tier's invocation
publishes the flag — also when that tier's preload tables are empty, in
which case the pass completes without any fault. -/
theorem c9_preloading_finished_flag :
    (({} : ReplayState).classPreloadingFinished = false) ∧
    (∀ (cfg : ReplayConfig) (env : List Klass) (wor : ReplayOracles)
        (st : ReplayState) (loader : Loader),
      (runtime_preload cfg env wor st loader).1.classPreloadingFinished =
          st.classPreloadingFinished ∨
      (st.classPreloadingFinished = false ∧
       (runtime_preload cfg env wor st loader).1.classPreloadingFinished = true)) ∧
    (∀ (cfg : ReplayConfig) (env : List Klass) (wor : ReplayOracles) (st : ReplayState),
      cfg.useSharedSpaces = true →
      cfg.staticPreloaded.app = [] → cfg.staticPreloaded.appInitiated = [] →
      cfg.dynamicPreloaded.app = [] → cfg.dynamicPreloaded.appInitiated = [] →
      (runtime_preload cfg env wor st .app).1.classPreloadingFinished = true ∧
      (runtime_preload cfg env wor st .app).2 = false) := by
  refine ⟨rfl, ?_, ?_⟩
  · intro cfg env wor st loader
    rcases runtime_preload_flag_cases cfg env wor st loader with h | h
    · left
      exact h
    · cases hf : st.classPreloadingFinished with
      | true =>
        left
        rw [h]
      | false =>
        right
        exact ⟨rfl, h⟩
  · intro cfg env wor st hshared hs1 _ hd1 _
    have hst : runtime_preload_table env wor cfg.staticPreloaded st .app = none := by
      unfold runtime_preload_table
      rw [hs1]
      simp [runtime_preload_klasses, runtime_init_klasses]
    have hdy : runtime_preload_table env wor cfg.dynamicPreloaded st .app = none := by
      unfold runtime_preload_table
      rw [hd1]
      simp [runtime_preload_klasses, runtime_init_klasses]
    unfold runtime_preload
    rw [hshared]
    simp only [if_true]
    split
    · exact ⟨rfl, rfl⟩
    · rw [hst]
      dsimp only
      rw [hdy]
      exact ⟨rfl, rfl⟩

/-- C9 witness: with shared spaces on and empty application-tier tables, the
application-tier invocation publishes the flag from the initial state. -/
theorem c9_preloading_finished_flag_witness :
    (runtime_preload {} [] {} ({} : ReplayState) .app).1.classPreloadingFinished = true ∧
    (runtime_preload {} [] {} ({} : ReplayState) .app).2 = false :=
  c9_preloading_finished_flag.2.2 {} [] {} {} rfl rfl rfl rfl rfl

theorem resolve_string_fault_cases (fl : Flags) (or : Oracles) (i : Nat) (st : CPState) :
    (resolve_string fl or i st).2 = none ∨ (resolve_string fl or i st).2 = some .stringOOM := by
  unfold resolve_string
  split
  · left
    rfl
  split
  · left
    rfl
  · right
    rfl

theorem dumptime_string_loop_fault_cases (fl : Flags) (or : Oracles) :
    ∀ (l : List Nat) (st : CPState),
      (dumptime_string_loop fl or l st).2 = none ∨
      (dumptime_string_loop fl or l st).2 = some .stringOOM := by
  intro l
  induction l with
  | nil =>
    intro st
    left
    rfl
  | cons i rest ih =>
    intro st
    unfold dumptime_string_loop
    split
    · rcases hrs : resolve_string fl or i st with ⟨st1, f⟩
      rcases resolve_string_fault_cases fl or i st with hf | hf <;> rw [hrs] at hf <;>
        simp only at hf <;> subst hf
      · exact ih st1
      · right
        rfl
    · exact ih st

/-- C4 (amended): every fault raised during best-effort dump-time resolution
of classes, fields, methods and dynamic call sites is caught and discarded at
the point of occurrence — the three preresolve entry points never propagate a
fault; `dumptime_resolve_constants`, however, propagates the one fault of its
string-interning step (an out-of-memory condition, as its source comment
notes), and nothing else. -/
theorem c4_faults_discarded :
    (∀ (or : Oracles) (fl : Flags) (kinfo : Klass) (info : CPInfo)
        (mask : Option (List Bool)) (st : CPState),
      (preresolve_class_cp_entries or fl kinfo info mask st).2 = none) ∧
    (∀ (env : List Klass) (or : Oracles) (fl : Flags) (kinfo : Klass) (info : CPInfo)
        (mask : Option (List Bool)) (st : CPState),
      (preresolve_field_and_method_cp_entries env or fl kinfo info mask st).2 = none) ∧
    (∀ (env : List Klass) (or : Oracles) (fl : Flags) (kinfo : Klass) (info : CPInfo)
        (mask : Option (List Bool)) (st : CPState),
      (preresolve_indy_cp_entries env or fl kinfo info mask st).2 = none) ∧
    (∀ (env : List Klass) (or : Oracles) (fl : Flags) (ik : Nat) (kinfo : Klass)
        (info : CPInfo) (pst : PrelinkState) (st : CPState),
      (dumptime_resolve_constants env or fl ik kinfo info pst st).2.2 = none ∨
      (dumptime_resolve_constants env or fl ik kinfo info pst st).2.2 = some .stringOOM) := by
  refine ⟨?_, ?_, ?_, ?_⟩
  · intro or fl kinfo info mask st
    unfold preresolve_class_cp_entries
    split
    · rfl
    split
    · rfl
    · rfl
  · intro env or fl kinfo info mask st
    unfold preresolve_field_and_method_cp_entries
    split
    · rfl
    · rfl
  · intro env or fl kinfo info mask st
    unfold preresolve_indy_cp_entries
    split
    · rfl
    · rfl
  · intro env or fl ik kinfo info pst st
    unfold dumptime_resolve_constants
    split
    · left
      rfl
    dsimp only
    split
    · left
      rfl
    · rcases hsl : dumptime_string_loop fl or (List.range' 1 (info.length - 1)) st with ⟨st1, f⟩
      rcases dumptime_string_loop_fault_cases fl or (List.range' 1 (info.length - 1)) st
        with hf | hf <;> rw [hsl] at hf <;> simp only at hf <;> subst hf
      · simp only
        split
        · split
          · left
            dsimp only
            unfold preresolve_field_and_method_cp_entries
            split
            · rfl
            · rfl
          · left
            rfl
        · left
          rfl
      · right
        rfl

/-- C4 counterexample: a linked class with a string constant whose interning
runs out of memory while the heap is being dumped makes
`dumptime_resolve_constants` propagate the fault to its caller, refuting the
claim that no per-class prelinking entry point lets a fault escape. -/
theorem c4_counterexample :
    (dumptime_resolve_constants [] c4Or {} 0 {} c4Info {} c4State).2.2 = some .stringOOM := by
  decide

theorem dumptime_resolve_constants_unlinked (env : List Klass) (or : Oracles)
    (fl : Flags) (ik : Nat) (kinfo : Klass) (info : CPInfo) (pst : PrelinkState)
    (st : CPState) (hl : kinfo.isLinked = false) :
    dumptime_resolve_constants env or fl ik kinfo info pst st = (pst, st, none) := by
  unfold dumptime_resolve_constants
  rw [hl]
  rfl

theorem dumptime_resolve_constants_seen (env : List Klass) (or : Oracles)
    (fl : Flags) (ik : Nat) (kinfo : Klass) (info : CPInfo) (pst : PrelinkState)
    (st : CPState) (hl : kinfo.isLinked = true)
    (hmem : tableHas pst.processedClasses ik = true) :
    dumptime_resolve_constants env or fl ik kinfo info pst st = (pst, st, none) := by
  unfold dumptime_resolve_constants
  rw [hl]
  have hput : tablePutIfAbsent pst.processedClasses ik false = (pst.processedClasses, false) := by
    unfold tablePutIfAbsent
    rw [hmem]
    rfl
  simp only [Bool.not_true, Bool.false_eq_true, if_false, hput]
  rfl

theorem dumptime_resolve_constants_fst (env : List Klass) (or : Oracles)
    (fl : Flags) (ik : Nat) (kinfo : Klass) (info : CPInfo) (pst : PrelinkState)
    (st : CPState) (hl : kinfo.isLinked = true) :
    (dumptime_resolve_constants env or fl ik kinfo info pst st).1 =
      { pst with processedClasses := (tablePutIfAbsent pst.processedClasses ik false).1 } := by
  unfold dumptime_resolve_constants
  split
  · rename_i h
    rw [hl] at h
    exact absurd h (by decide)
  · dsimp only
    split
    · rfl
    · split
      · rfl
      · split
        · split
          · rfl
          · rfl
        · rfl

/-- C6 (amended): per-class constant-pool processing is idempotent: for a
linked class the first invocation of `dumptime_resolve_constants` marks the
class in the processed ("seen") set and a second invocation with the same
class returns the state unchanged with no fault; for an unlinked class every
invocation returns immediately without marking or changing anything. -/
theorem c6_dumptime_idempotent (env : List Klass) (or : Oracles) (fl : Flags)
    (ik : Nat) (kinfo : Klass) (info : CPInfo) (pst : PrelinkState) (st : CPState) :
    (kinfo.isLinked = true →
      tableHas (dumptime_resolve_constants env or fl ik kinfo info pst st).1.processedClasses
        ik = true) ∧
    dumptime_resolve_constants env or fl ik kinfo info
        (dumptime_resolve_constants env or fl ik kinfo info pst st).1
        (dumptime_resolve_constants env or fl ik kinfo info pst st).2.1 =
      ((dumptime_resolve_constants env or fl ik kinfo info pst st).1,
       (dumptime_resolve_constants env or fl ik kinfo info pst st).2.1, none) := by
  cases hl : kinfo.isLinked with
  | false =>
    have h1 := dumptime_resolve_constants_unlinked env or fl ik kinfo info pst st hl
    constructor
    · intro h
      exact absurd h (by simp [hl])
    · rw [h1]
      exact dumptime_resolve_constants_unlinked env or fl ik kinfo info pst st hl
  | true =>
    have hfst := dumptime_resolve_constants_fst env or fl ik kinfo info pst st hl
    have hmem : tableHas
        (dumptime_resolve_constants env or fl ik kinfo info pst st).1.processedClasses ik = true := by
      rw [hfst]
      exact tableHas_putIfAbsent_self pst.processedClasses ik false
    constructor
    · intro _
      exact hmem
    · exact dumptime_resolve_constants_seen env or fl ik kinfo info _ _ hl hmem

/-- C6 witness: for a concrete linked class, the first invocation marks it
processed and the second invocation is a no-op. -/
theorem c6_dumptime_idempotent_witness :
    tableHas (dumptime_resolve_constants [] {} {} 5 c6WitKinfo {} {} {}).1.processedClasses
      5 = true ∧
    dumptime_resolve_constants [] {} {} 5 c6WitKinfo {}
        (dumptime_resolve_constants [] {} {} 5 c6WitKinfo {} {} {}).1
        (dumptime_resolve_constants [] {} {} 5 c6WitKinfo {} {} {}).2.1 =
      ((dumptime_resolve_constants [] {} {} 5 c6WitKinfo {} {} {}).1,
       (dumptime_resolve_constants [] {} {} 5 c6WitKinfo {} {} {}).2.1, none) := by
  have h := c6_dumptime_idempotent [] {} {} 5 c6WitKinfo {} {} {}
  exact ⟨h.1 rfl, h.2⟩

/-- C6 counterexample: for an unlinked class the first invocation does not
mark the class in the processed set, refuting the claim's universal "the
first invocation marks C in the seen set". -/
theorem c6_counterexample :
    (dumptime_resolve_constants [] {} {} 0 c6Kinfo {} {} {}).1.processedClasses = [] ∧
    tableHas (dumptime_resolve_constants [] {} {} 0 c6Kinfo {} {} {}).1.processedClasses
      0 = false := by
  decide

theorem tableHas_cons_self (k : Nat) (v : Bool) (t : List (Nat × Bool)) :
    tableHas ((k, v) :: t) k = true := by
  simp [tableHas]

theorem tableHas_cons_of (k : Nat) (v : Bool) (t : List (Nat × Bool)) (x : Nat)
    (h : tableHas t x = true) :
    tableHas ((k, v) :: t) x = true := by
  simp only [tableHas, List.any_cons] at h ⊢
  simp [h]

theorem option_all_iff (o : Option Nat) (p : Nat → Bool) :
    o.all p = true ↔ ∀ s, o = some s → p s = true := by
  cases o with
  | none => simp [Option.all]
  | some s => simp [Option.all]

theorem envValidP_of_envValidB (env : List Klass) (h : envValidB env = true) :
    envValidP env := by
  intro i
  by_cases hi : i < env.length
  · have h2 := List.all_eq_true.mp h i (List.mem_range.mpr hi)
    simp only [Bool.and_eq_true] at h2
    constructor
    · intro s hs
      have h3 := (option_all_iff _ _).mp h2.1 s hs
      simpa using h3
    · intro j hj
      have h3 := List.all_eq_true.mp h2.2 j hj
      simpa using h3
  · have hdef : klassAt env i = {} := by
      unfold klassAt
      rw [List.getD_eq_default]
      exact Nat.le_of_not_lt hi
    rw [hdef]
    constructor
    · intro s hs
      exact absurd hs (by simp)
    · intro j hj
      exact absurd hj (by simp)

theorem add_one_vm_class_spec (env : List Klass) (hv : envValidP env) :
    ∀ (fuel ik : Nat) (st : PrelinkState) (pending : List Nat),
      ik + 1 ≤ fuel →
      closedExceptP env st.vmClasses pending →
      (∀ x, tableHas st.vmClasses x = true →
        tableHas (add_one_vm_class env fuel st ik).vmClasses x = true) ∧
      tableHas (add_one_vm_class env fuel st ik).vmClasses ik = true ∧
      closedExceptP env (add_one_vm_class env fuel st ik).vmClasses pending := by
  intro fuel
  induction fuel with
  | zero =>
    intro ik st pending hf _
    exact absurd hf (by omega)
  | succ f ih =>
    intro ik st pending hfuel hclosed
    cases hmem : tableHas st.vmClasses ik with
    | true =>
      have hput : tablePutIfAbsent st.vmClasses ik false = (st.vmClasses, false) := by
        simp [tablePutIfAbsent, hmem]
      simp only [add_one_vm_class, hput]
      exact ⟨fun x h => h, hmem, hclosed⟩
    | false =>
      have hput : tablePutIfAbsent st.vmClasses ik false =
          ((ik, false) :: st.vmClasses, true) := by
        simp [tablePutIfAbsent, hmem]
      have hclosed1 : closedExceptP env ((ik, false) :: st.vmClasses) (ik :: pending) := by
        intro c hc
        simp only [List.map_cons, List.mem_cons] at hc
        rcases hc with hc | hc
        · exact Or.inl (by simp [hc])
        · rcases hclosed c hc with hp | ⟨hsupo, hifso⟩
          · exact Or.inl (List.mem_cons_of_mem _ hp)
          · refine Or.inr ⟨?_, ?_⟩
            · rw [option_all_iff] at hsupo ⊢
              intro s hs
              exact tableHas_cons_of ik false _ s (hsupo s hs)
            · intro j hj
              exact tableHas_cons_of ik false _ j (hifso j hj)
      have fold_spec : ∀ (l : List Nat), (∀ j ∈ l, j + 1 ≤ f) →
          ∀ (stx : PrelinkState), closedExceptP env stx.vmClasses (ik :: pending) →
            (∀ x, tableHas stx.vmClasses x = true →
              tableHas ((l.foldl (add_one_vm_class env f) stx)).vmClasses x = true) ∧
            (∀ j ∈ l, tableHas ((l.foldl (add_one_vm_class env f) stx)).vmClasses j = true) ∧
            closedExceptP env ((l.foldl (add_one_vm_class env f) stx)).vmClasses
              (ik :: pending) := by
        intro l
        induction l with
        | nil =>
          intro _ stx hcl
          exact ⟨fun x h => h, by simp, hcl⟩
        | cons j tl ihl =>
          intro hjf stx hcl
          obtain ⟨m1, h1j, c1⟩ :=
            ih j stx (ik :: pending) (hjf j (List.mem_cons_self j tl)) hcl
          obtain ⟨m2, h2, c2⟩ :=
            ihl (fun j2 hj2 => hjf j2 (List.mem_cons_of_mem j hj2))
              (add_one_vm_class env f stx j) c1
          refine ⟨fun x hx => m2 x (m1 x hx), ?_, c2⟩
          intro j2 hj2
          rcases List.mem_cons.mp hj2 with hj2 | hj2
          · subst hj2
            exact m2 j2 h1j
          · exact h2 j2 hj2
      have hik : ik ≤ f := by omega
      -- the post-recursion state after handling the supertype
      cases hsup : (klassAt env ik).superIdx with
      | some s =>
        have hslt : s < ik := (hv ik).1 s hsup
        have hsf : s + 1 ≤ f := by omega
        simp only [add_one_vm_class, hput, hsup]
        obtain ⟨m1, hhs, c1⟩ :=
          ih s { st with
                  preloadedClasses := (tablePutIfAbsent st.preloadedClasses ik false).1,
                  vmClasses := (ik, false) :: st.vmClasses,
                  numVmKlasses := st.numVmKlasses + 1 } (ik :: pending) hsf hclosed1
        obtain ⟨m2, h2, c2⟩ :=
          fold_spec (klassAt env ik).interfaces
            (fun j hj => by
              have : j < ik := (hv ik).2 j hj
              omega)
            _ c1
        have hikin : tableHas
            (((klassAt env ik).interfaces.foldl (add_one_vm_class env f)
              (add_one_vm_class env f
                { st with
                    preloadedClasses := (tablePutIfAbsent st.preloadedClasses ik false).1,
                    vmClasses := (ik, false) :: st.vmClasses,
                    numVmKlasses := st.numVmKlasses + 1 } s)).vmClasses) ik = true :=
          m2 ik (m1 ik (tableHas_cons_self ik false st.vmClasses))
        refine ⟨?_, hikin, ?_⟩
        · intro x hx
          exact m2 x (m1 x (tableHas_cons_of ik false _ x hx))
        · intro c hc
          rcases c2 c hc with hp | hob
          · rcases List.mem_cons.mp hp with hp | hp
            · subst hp
              refine Or.inr ⟨?_, ?_⟩
              · rw [option_all_iff]
                intro s2 hs2
                rw [hsup] at hs2
                injection hs2 with hs2e
                subst hs2e
                exact m2 s hhs
              · intro j hj
                exact h2 j hj
            · exact Or.inl hp
          · exact Or.inr hob
      | none =>
        simp only [add_one_vm_class, hput, hsup]
        obtain ⟨m2, h2, c2⟩ :=
          fold_spec (klassAt env ik).interfaces
            (fun j hj => by
              have : j < ik := (hv ik).2 j hj
              omega)
            { st with
                preloadedClasses := (tablePutIfAbsent st.preloadedClasses ik false).1,
                vmClasses := (ik, false) :: st.vmClasses,
                numVmKlasses := st.numVmKlasses + 1 } hclosed1
        have hikin := m2 ik (tableHas_cons_self ik false st.vmClasses)
        refine ⟨?_, hikin, ?_⟩
        · intro x hx
          exact m2 x (tableHas_cons_of ik false _ x hx)
        · intro c hc
          rcases c2 c hc with hp | hob
          · rcases List.mem_cons.mp hp with hp | hp
            · subst hp
              refine Or.inr ⟨?_, ?_⟩
              · rw [option_all_iff]
                intro s2 hs2
                rw [hsup] at hs2
                exact absurd hs2 (by simp)
              · intro j hj
                exact h2 j hj
            · exact Or.inl hp
          · exact Or.inr hob

/-- C5: the runtime-essential ("required-by-runtime") set stays closed under
supertype and interface edges across any `add_one_vm_class` insertion, and
seeding the empty registry with Integer (extends Number extends Object)
yields exactly the three classes Object, Number, Integer (in both the
vm-classes and the preloaded table). -/
theorem c5_vm_class_closure :
    (∀ (env : List Klass) (fuel ik : Nat) (st : PrelinkState),
      envValidB env = true → ik + 1 ≤ fuel →
      closedExceptP env st.vmClasses [] →
      closedExceptP env (add_one_vm_class env fuel st ik).vmClasses []) ∧
    ((add_one_vm_class sampleEnv 3 {} 2).vmClasses.map Prod.fst = [0, 1, 2] ∧
     (add_one_vm_class sampleEnv 3 {} 2).preloadedClasses.map Prod.fst = [0, 1, 2] ∧
     (add_one_vm_class sampleEnv 3 {} 2).numVmKlasses = 3) := by
  constructor
  · intro env fuel ik st hb hfuel hclosed
    exact (add_one_vm_class_spec env (envValidP_of_envValidB env hb)
      fuel ik st [] hfuel hclosed).2.2
  · refine ⟨?_, ?_, ?_⟩ <;> decide

/-- C5 witness: the closure-preservation part applied to the concrete
three-class sample hierarchy starting from the empty registry. -/
theorem c5_vm_class_closure_witness :
    closedExceptP sampleEnv (add_one_vm_class sampleEnv 3 ({} : PrelinkState) 2).vmClasses [] :=
  c5_vm_class_closure.1 sampleEnv 3 2 {} (by decide) (by decide)
    (by intro c hc; exact absurd hc (by simp))

theorem getD_set_ne {α : Type} (l : List α) (i j : Nat) (a d : α) (h : i ≠ j) :
    (l.set i a).getD j d = l.getD j d := by
  simp [List.getD_eq_getElem?_getD, List.getElem?_set_ne h]

theorem cpUnchanged_refl (info : CPInfo) (K : Nat) (s : CPState) :
    cpEntryStateUnchanged info K s s :=
  ⟨rfl, fun _ _ => rfl, fun _ _ => rfl, fun _ _ => rfl, Iff.rfl⟩

theorem cpUnchanged_trans (info : CPInfo) (K : Nat) {s t u : CPState}
    (h1 : cpEntryStateUnchanged info K s t) (h2 : cpEntryStateUnchanged info K t u) :
    cpEntryStateUnchanged info K s u := by
  obtain ⟨a1, b1, c1, d1, e1⟩ := h1
  obtain ⟨a2, b2, c2, d2, e2⟩ := h2
  exact ⟨a2.trans a1, fun r hr => (b2 r hr).trans (b1 r hr),
    fun c hc => (c2 c hc).trans (c1 c hc),
    fun i hi => (d2 i hi).trans (d1 i hi), e2.trans e1⟩

theorem cpUnchanged_setTag (info : CPInfo) (K : Nat) (s : CPState) (i : Nat) (t : CPTag)
    (h : i ≠ K) : cpEntryStateUnchanged info K s (setTag s i t) :=
  ⟨getD_set_ne s.tags i K t .otherTag h, fun _ _ => rfl, fun _ _ => rfl,
    fun _ _ => rfl, Iff.rfl⟩

theorem cpUnchanged_setFieldResolved (info : CPInfo) (K : Nat) (s : CPState) (r : Nat)
    (h : info.fieldEntryCpIndex.getD r 0 ≠ K) :
    cpEntryStateUnchanged info K s (setFieldResolved s r) := by
  refine ⟨rfl, ?_, fun _ _ => rfl, fun _ _ => rfl, Iff.rfl⟩
  intro r2 hr2
  have hne : r ≠ r2 := fun he => h (he ▸ hr2)
  exact getD_set_ne s.fieldResolved r r2 true false hne

theorem cpUnchanged_setMethodResolved (info : CPInfo) (K : Nat) (s : CPState) (c : Nat)
    (h : info.methodEntryCpIndex.getD c 0 ≠ K) :
    cpEntryStateUnchanged info K s (setMethodResolved s c) := by
  refine ⟨rfl, fun _ _ => rfl, ?_, fun _ _ => rfl, Iff.rfl⟩
  intro c2 hc2
  have hne : c ≠ c2 := fun he => h (he ▸ hc2)
  exact getD_set_ne s.methodResolved c c2 true false hne

theorem cpUnchanged_resolve_get_put (or : Oracles) (info : CPInfo) (K : Nat)
    (raw : Nat) (s : CPState) (h : info.fieldEntryCpIndex.getD raw 0 ≠ K) :
    cpEntryStateUnchanged info K s (resolve_get_put or raw s).1 := by
  unfold resolve_get_put
  split
  · exact cpUnchanged_setFieldResolved info K s raw h
  · exact cpUnchanged_refl info K s

theorem cpUnchanged_cds_resolve_invoke (or : Oracles) (info : CPInfo) (K : Nat)
    (cpc? : Option Nat) (s : CPState)
    (h : ∀ c, cpc? = some c → info.methodEntryCpIndex.getD c 0 ≠ K) :
    cpEntryStateUnchanged info K s (cds_resolve_invoke or cpc? s).1 := by
  cases cpc? with
  | none => exact cpUnchanged_refl info K s
  | some c =>
    have hred : cds_resolve_invoke or (some c) s =
        if or.resolveMethod c then (setMethodResolved s c, none)
        else (s, some .resolutionError) := rfl
    rw [hred]
    split
    · exact cpUnchanged_setMethodResolved info K s c (h c rfl)
    · exact cpUnchanged_refl info K s

theorem cpUnchanged_step4 (env : List Klass) (or : Oracles) (info : CPInfo) (K : Nat)
    (bc : BC) (raw : Nat) (cpc? : Option Nat) (rk : Nat) (s : CPState)
    (hf : isInvokeKindProcessed bc = false → info.fieldEntryCpIndex.getD raw 0 ≠ K)
    (hm : ∀ c, cpc? = some c → info.methodEntryCpIndex.getD c 0 ≠ K) :
    cpEntryStateUnchanged info K s (maybe_resolve_fmi_step4 env or bc raw cpc? rk s).1 := by
  cases bc with
  | getstatic => exact cpUnchanged_refl info K s
  | putstatic => exact cpUnchanged_refl info K s
  | getfield => exact cpUnchanged_resolve_get_put or info K raw s (hf (by decide))
  | putfield => exact cpUnchanged_resolve_get_put or info K raw s (hf (by decide))
  | nofast_getfield => exact cpUnchanged_resolve_get_put or info K raw s (hf (by decide))
  | nofast_putfield => exact cpUnchanged_resolve_get_put or info K raw s (hf (by decide))
  | invokevirtual => exact cpUnchanged_cds_resolve_invoke or info K cpc? s hm
  | invokeinterface => exact cpUnchanged_refl info K s
  | invokespecial => exact cpUnchanged_refl info K s
  | invokehandle => exact cpUnchanged_cds_resolve_invoke or info K cpc? s hm
  | invokestatic =>
    have hred : maybe_resolve_fmi_step4 env or .invokestatic raw cpc? rk s =
        if !UseNewCode &&
            !((klassAt env rk).name == "java/lang/invoke/MethodHandle") &&
            !((klassAt env rk).name == "java/lang/invoke/MethodHandleNatives") then
          (s, none)
        else cds_resolve_invoke or cpc? s := rfl
    rw [hred]
    split
    · exact cpUnchanged_refl info K s
    · exact cpUnchanged_cds_resolve_invoke or info K cpc? s hm
  | otherBC => exact cpUnchanged_refl info K s

theorem cpUnchanged_step3 (env : List Klass) (or : Oracles) (kinfo : Klass)
    (info : CPInfo) (K : Nat) (bc : BC) (raw cp_index : Nat) (cpc? : Option Nat)
    (s : CPState)
    (hkne : (entryAt info cp_index).klassRefIndex ≠ K)
    (hf : isInvokeKindProcessed bc = false → info.fieldEntryCpIndex.getD raw 0 ≠ K)
    (hm : ∀ c, cpc? = some c → info.methodEntryCpIndex.getD c 0 ≠ K) :
    cpEntryStateUnchanged info K s
      (maybe_resolve_fmi_step3 env or kinfo info bc raw cp_index cpc? s).1 := by
  unfold maybe_resolve_fmi_step3
  dsimp only
  split
  · exact cpUnchanged_step4 env or info K bc raw cpc? _ s hf hm
  · exact cpUnchanged_refl info K s
  · split
    · exact cpUnchanged_refl info K s
    · split
      · exact cpUnchanged_setTag info K s _ _ hkne
      · exact cpUnchanged_trans info K (cpUnchanged_setTag info K s _ _ hkne)
          (cpUnchanged_step4 env or info K bc raw cpc? _ _ hf hm)

theorem cpUnchanged_step2 (env : List Klass) (or : Oracles) (kinfo : Klass)
    (info : CPInfo) (K : Nat) (bc : BC) (raw cp_index : Nat) (cpc? : Option Nat)
    (m : List Bool) (s : CPState)
    (hK : m.getD K false = false)
    (hside2 : m.getD cp_index false = true → (entryAt info cp_index).klassRefIndex ≠ K)
    (hf2 : m.getD cp_index false = true → isInvokeKindProcessed bc = false →
      info.fieldEntryCpIndex.getD raw 0 ≠ K)
    (hmcp : ∀ c, cpc? = some c → info.methodEntryCpIndex.getD c 0 = cp_index) :
    cpEntryStateUnchanged info K s
      (maybe_resolve_fmi_step2 env or kinfo info bc raw cp_index cpc? (some m) s).1 := by
  unfold maybe_resolve_fmi_step2
  cases hmask : m.getD cp_index false with
  | false =>
    rw [if_pos (show maskSkips (some m) cp_index = true by
      simp only [maskSkips, hmask, Bool.not_false])]
    rw [if_neg (by simp [UseNewCode2])]
    exact cpUnchanged_refl info K s
  | true =>
    rw [if_neg (show ¬ maskSkips (some m) cp_index = true by
      simp only [maskSkips, hmask, Bool.not_true]
      simp)]
    have hcpK : cp_index ≠ K := by
      intro he
      rw [he, hK] at hmask
      exact absurd hmask (by simp)
    refine cpUnchanged_step3 env or kinfo info K bc raw cp_index cpc? s
      (hside2 hmask) (hf2 hmask) ?_
    intro c hc
    rw [hmcp c hc]
    exact hcpK

theorem cpUnchanged_maybe_resolve (env : List Klass) (or : Oracles) (kinfo : Klass)
    (info : CPInfo) (K : Nat) (bc : BC) (raw : Nat) (m : List Bool) (s : CPState)
    (hK : m.getD K false = false)
    (hside : m.getD (scanInstrCpIndex or info bc raw) false = true →
      (entryAt info (scanInstrCpIndex or info bc raw)).klassRefIndex ≠ K) :
    cpEntryStateUnchanged info K s
      (maybe_resolve_fmi_ref env or kinfo info bc raw (some m) s).1 := by
  by_cases hik : isInvokeKindProcessed bc = true
  · have hsc : scanInstrCpIndex or info bc raw =
        info.methodEntryCpIndex.getD (or.decodeCpcache raw) 0 := by
      unfold scanInstrCpIndex
      rw [if_pos hik]
    rw [hsc] at hside
    have hred : maybe_resolve_fmi_ref env or kinfo info bc raw (some m) s =
        (if s.methodResolved.getD (or.decodeCpcache raw) false = true then (s, none)
         else maybe_resolve_fmi_step2 env or kinfo info bc raw
           (info.methodEntryCpIndex.getD (or.decodeCpcache raw) 0)
           (some (or.decodeCpcache raw)) (some m) s) := by
      unfold maybe_resolve_fmi_ref
      rw [if_pos hik]
    rw [hred]
    split
    · exact cpUnchanged_refl info K s
    · refine cpUnchanged_step2 env or kinfo info K bc raw _ _ m s hK hside ?_ ?_
      · intro _ hfalse
        exact absurd hik (by simp [hfalse])
      · intro c hc
        injection hc with hce
        subst hce
        rfl
  · have hik2 : isInvokeKindProcessed bc = false := by
      cases h2 : isInvokeKindProcessed bc with
      | false => rfl
      | true => exact absurd h2 hik
    have hsc : scanInstrCpIndex or info bc raw = info.fieldEntryCpIndex.getD raw 0 := by
      unfold scanInstrCpIndex
      rw [if_neg (by simp [hik2])]
    rw [hsc] at hside
    have hred : maybe_resolve_fmi_ref env or kinfo info bc raw (some m) s =
        maybe_resolve_fmi_step2 env or kinfo info bc raw
          (info.fieldEntryCpIndex.getD raw 0) none (some m) s := by
      unfold maybe_resolve_fmi_ref
      rw [if_neg (by simp [hik2])]
    rw [hred]
    refine cpUnchanged_step2 env or kinfo info K bc raw _ _ m s hK hside ?_ ?_
    · intro hmask _
      intro he
      rw [he, hK] at hmask
      exact absurd hmask (by simp)
    · intro c hc
      exact absurd hc (by simp)

theorem cpUnchanged_scan_one (env : List Klass) (or : Oracles) (fl : Flags)
    (kinfo : Klass) (info : CPInfo) (K : Nat) (m : List Bool) (s : CPState)
    (ins : BC × Nat)
    (hK : m.getD K false = false)
    (hside : scannedOpcode ins.1 = true →
      m.getD (scanInstrCpIndex or info ins.1 ins.2) false = true →
      (entryAt info (scanInstrCpIndex or info ins.1 ins.2)).klassRefIndex ≠ K) :
    cpEntryStateUnchanged info K s (scan_one env or fl kinfo info (some m) s ins) := by
  rcases ins with ⟨bc, raw⟩
  cases bc with
  | getstatic =>
    unfold scan_one
    rw [if_pos (by simp [UseNewCode])]
    exact cpUnchanged_refl info K s
  | putstatic =>
    unfold scan_one
    rw [if_pos (by simp [UseNewCode])]
    exact cpUnchanged_refl info K s
  | getfield => exact cpUnchanged_maybe_resolve env or kinfo info K _ raw m s hK (hside rfl)
  | putfield => exact cpUnchanged_maybe_resolve env or kinfo info K _ raw m s hK (hside rfl)
  | nofast_getfield =>
    exact cpUnchanged_maybe_resolve env or kinfo info K (java_code .nofast_getfield) raw m s hK
      (hside rfl)
  | nofast_putfield =>
    exact cpUnchanged_maybe_resolve env or kinfo info K (java_code .nofast_putfield) raw m s hK
      (hside rfl)
  | invokehandle =>
    unfold scan_one
    dsimp only [UseNewCode]
    split
    · exact cpUnchanged_refl info K s
    · exact cpUnchanged_refl info K s
  | invokevirtual =>
    unfold scan_one
    rw [if_pos (by simp [UseNewCode])]
    exact cpUnchanged_refl info K s
  | invokeinterface =>
    unfold scan_one
    rw [if_pos (by simp [UseNewCode])]
    exact cpUnchanged_refl info K s
  | invokespecial => exact cpUnchanged_maybe_resolve env or kinfo info K _ raw m s hK (hside rfl)
  | invokestatic => exact cpUnchanged_maybe_resolve env or kinfo info K _ raw m s hK (hside rfl)
  | otherBC => exact cpUnchanged_refl info K s

theorem cpUnchanged_scan_list (env : List Klass) (or : Oracles) (fl : Flags)
    (kinfo : Klass) (info : CPInfo) (K : Nat) (m : List Bool) (l : List (BC × Nat)) :
    ∀ s : CPState, m.getD K false = false →
    (∀ ins ∈ l, scannedOpcode ins.1 = true →
      m.getD (scanInstrCpIndex or info ins.1 ins.2) false = true →
      (entryAt info (scanInstrCpIndex or info ins.1 ins.2)).klassRefIndex ≠ K) →
    cpEntryStateUnchanged info K s (l.foldl (scan_one env or fl kinfo info (some m)) s) := by
  induction l with
  | nil =>
    intro s _ _
    exact cpUnchanged_refl info K s
  | cons ins tl ihl =>
    intro s hK hside
    have h1 := cpUnchanged_scan_one env or fl kinfo info K m s ins hK
      (hside ins (List.mem_cons_self ins tl))
    have h2 := ihl (scan_one env or fl kinfo info (some m) s ins) hK
      (fun i hi => hside i (List.mem_cons_of_mem ins hi))
    exact cpUnchanged_trans info K h1 h2

theorem cpUnchanged_scan_methods (env : List Klass) (or : Oracles) (fl : Flags)
    (kinfo : Klass) (info : CPInfo) (K : Nat) (m : List Bool)
    (ms : List (List (BC × Nat))) :
    ∀ s : CPState, m.getD K false = false →
    (∀ mth ∈ ms, ∀ ins ∈ mth, scannedOpcode ins.1 = true →
      m.getD (scanInstrCpIndex or info ins.1 ins.2) false = true →
      (entryAt info (scanInstrCpIndex or info ins.1 ins.2)).klassRefIndex ≠ K) →
    cpEntryStateUnchanged info K s
      (ms.foldl (fun s2 mth => mth.foldl (scan_one env or fl kinfo info (some m)) s2) s) := by
  induction ms with
  | nil =>
    intro s _ _
    exact cpUnchanged_refl info K s
  | cons mth tl ihl =>
    intro s hK hside
    have h1 := cpUnchanged_scan_list env or fl kinfo info K m mth s hK
      (hside mth (List.mem_cons_self mth tl))
    have h2 := ihl (mth.foldl (scan_one env or fl kinfo info (some m)) s) hK
      (fun mth2 hm2 => hside mth2 (List.mem_cons_of_mem mth hm2))
    exact cpUnchanged_trans info K h1 h2

theorem cpUnchanged_preresolve_class_step (or : Oracles) (kinfo : Klass)
    (info : CPInfo) (K : Nat) (m : List Bool) (s : CPState) (i : Nat)
    (hK : m.getD K false = false) :
    cpEntryStateUnchanged info K s (preresolve_class_step or kinfo info (some m) s i) := by
  unfold preresolve_class_step
  by_cases hiK : i = K
  · subst hiK
    split
    · rw [if_pos (show maskSkips (some m) i = true by
        simp only [maskSkips, hK, Bool.not_false])]
      exact cpUnchanged_refl info i s
    · exact cpUnchanged_refl info i s
  · split
    · split
      · exact cpUnchanged_refl info K s
      · split
        · exact cpUnchanged_refl info K s
        · split
          · exact cpUnchanged_setTag info K s i _ hiK
          · exact cpUnchanged_setTag info K s i _ hiK
    · exact cpUnchanged_refl info K s

theorem cpUnchanged_preresolve_class_fold (or : Oracles) (kinfo : Klass)
    (info : CPInfo) (K : Nat) (m : List Bool) (l : List Nat) :
    ∀ s : CPState, m.getD K false = false →
    cpEntryStateUnchanged info K s
      (l.foldl (preresolve_class_step or kinfo info (some m)) s) := by
  induction l with
  | nil =>
    intro s _
    exact cpUnchanged_refl info K s
  | cons i tl ihl =>
    intro s hK
    exact cpUnchanged_trans info K
      (cpUnchanged_preresolve_class_step or kinfo info K m s i hK)
      (ihl (preresolve_class_step or kinfo info (some m) s i) hK)

theorem cpUnchanged_preresolve_class (or : Oracles) (fl : Flags) (kinfo : Klass)
    (info : CPInfo) (K : Nat) (m : List Bool) (s : CPState)
    (hK : m.getD K false = false) :
    cpEntryStateUnchanged info K s
      (preresolve_class_cp_entries or fl kinfo info (some m) s).1 := by
  unfold preresolve_class_cp_entries
  split
  · exact cpUnchanged_refl info K s
  split
  · exact cpUnchanged_refl info K s
  · exact cpUnchanged_preresolve_class_fold or kinfo info K m _ s hK

theorem cpUnchanged_preresolve_fmi (env : List Klass) (or : Oracles) (fl : Flags)
    (kinfo : Klass) (info : CPInfo) (K : Nat) (m : List Bool) (s : CPState)
    (hK : m.getD K false = false)
    (hside : ∀ mth ∈ info.methods, ∀ ins ∈ mth, scannedOpcode ins.1 = true →
      m.getD (scanInstrCpIndex or info ins.1 ins.2) false = true →
      (entryAt info (scanInstrCpIndex or info ins.1 ins.2)).klassRefIndex ≠ K) :
    cpEntryStateUnchanged info K s
      (preresolve_field_and_method_cp_entries env or fl kinfo info (some m) s).1 := by
  unfold preresolve_field_and_method_cp_entries
  split
  · exact cpUnchanged_refl info K s
  · exact cpUnchanged_scan_methods env or fl kinfo info K m info.methods s hK hside

/-- C3 (amended): when the supplied training mask marks constant-pool index
K as unexercised, the trained resolution passes (class-entry resolution and
field/method resolution via bytecode scan) leave entry K's resolution state
unchanged, provided no bytecode-scanned field/method reference that the mask
marks exercised has K as the index of its symbolic class component.  (Without
that proviso, resolving an exercised field/method entry resolves its class
component as a side effect even if the mask marks that class entry
unexercised — see the counterexample.) -/
theorem c3_masked_entry_unresolved (env : List Klass) (or : Oracles) (fl : Flags)
    (kinfo : Klass) (info : CPInfo) (m : List Bool) (K : Nat) (st : CPState)
    (hK : m.getD K false = false)
    (hside : ∀ mth ∈ info.methods, ∀ ins ∈ mth, scannedOpcode ins.1 = true →
      m.getD (scanInstrCpIndex or info ins.1 ins.2) false = true →
      (entryAt info (scanInstrCpIndex or info ins.1 ins.2)).klassRefIndex ≠ K) :
    cpEntryStateUnchanged info K st
      (trained_resolution_passes env or fl kinfo info (some m) st) := by
  unfold trained_resolution_passes
  exact cpUnchanged_trans info K
    (cpUnchanged_preresolve_class or fl kinfo info K m st hK)
    (cpUnchanged_preresolve_fmi env or fl kinfo info K m _ hK hside)

/-- C3 witness: with the all-unexercised mask, the trained passes leave the
class entry 2 of the concrete pool untouched. -/
theorem c3_masked_entry_unresolved_witness :
    cpEntryStateUnchanged c3Info 2 c3State
      (trained_resolution_passes [] c3Or {} c3Kinfo c3Info (some c3WitMask) c3State) :=
  c3_masked_entry_unresolved [] c3Or {} c3Kinfo c3Info c3WitMask 2 c3State
    (by decide) (by decide)

/-- C3 counterexample: the mask marks class entry 2 unexercised, yet running
the trained passes resolves it (from `unresolvedClass` to class 7) as a side
effect of resolving the exercised field entry 1 whose class component is
entry 2 — refuting the claim that a masked entry is always left unresolved. -/
theorem c3_counterexample :
    c3Mask.getD 2 false = false ∧
    c3State.tags.getD 2 .otherTag = .unresolvedClass ∧
    (trained_resolution_passes [] c3Or {} c3Kinfo c3Info (some c3Mask) c3State).tags.getD 2
      .otherTag = .klassTag 7 ∧
    ¬ cpEntryStateUnchanged c3Info 2 c3State
        (trained_resolution_passes [] c3Or {} c3Kinfo c3Info (some c3Mask) c3State) := by
  refine ⟨by decide, by decide, by decide, ?_⟩
  intro h
  have hne : ¬ ((trained_resolution_passes [] c3Or {} c3Kinfo c3Info (some c3Mask)
      c3State).tags.getD 2 .otherTag = c3State.tags.getD 2 .otherTag) := by
    decide
  exact hne h.1

